import Mathlib

/-!
Shallow embedding of the ViOT device scanner (Go sources under
`viot-scanner/`) together with proofs about its matching, CIDR,
persistence and parsing routines.

Machine integers are modelled as `Nat`/`Int` with explicit wrap-around
(`% 2 ^ 32`, `% 2 ^ 64`) at the points where the Go code performs
fixed-width arithmetic.  Network I/O is modelled by passing the values a
session would have returned as explicit oracle arguments.
-/

namespace ViOT

/-! ### Go string primitives (char-list level) -/

/-- Go `strings.Contains`: `sub` occurs as a contiguous substring of `s`. -/
def containsSubList : List Char → List Char → Bool
  | [], sub => sub.isEmpty
  | c :: t, sub => sub.isPrefixOf (c :: t) || containsSubList t sub

/-- Go `strings.Contains` on `String`s. -/
def goContains (s sub : String) : Bool :=
  containsSubList s.data sub.data

/-- Go `strings.Split(s, sep)` for a one-character separator.
`Split("", sep)` is `[""]`, as in Go. -/
def goSplitChar (sep : Char) : List Char → List (List Char)
  | [] => [[]]
  | c :: rest =>
    if c = sep then [] :: goSplitChar sep rest
    else
      match goSplitChar sep rest with
      | [] => [[c]]
      | g :: gs => (c :: g) :: gs

/-- Go `unicode.IsSpace` restricted to the ASCII whitespace characters
(the only ones that occur in fping output). -/
def isGoSpace (c : Char) : Bool :=
  c = ' ' || c = '\t' || c = '\n' || c = '\x0b' || c = '\x0c' || c = '\r'

/-- Drop leading whitespace. -/
def trimLeftSpace : List Char → List Char
  | [] => []
  | c :: rest => if isGoSpace c then trimLeftSpace rest else c :: rest

/-- Go `strings.TrimSpace`: trims both ends. -/
def trimSpaceChars (l : List Char) : List Char :=
  (trimLeftSpace ((trimLeftSpace l).reverse)).reverse

/-- Drop leading `(` and `)` characters; the left half of
Go `strings.Trim(s, "()")`. -/
def trimParenLeft : List Char → List Char
  | [] => []
  | c :: rest => if c = '(' ∨ c = ')' then trimParenLeft rest else c :: rest

/-- Go `strings.Trim(s, "()")`: trim the cutset from both ends. -/
def goTrimParens (l : List Char) : List Char :=
  (trimParenLeft ((trimParenLeft l).reverse)).reverse

/-- Decimal value of a digit string, most significant digit first. -/
def digitsVal (l : List Char) : Nat :=
  l.foldl (fun acc c => acc * 10 + (c.toNat - '0'.toNat)) 0

/-! ### Constants from `viot-scanner/models/constants.go` -/

def PROTOCOL_SNMP : String := "snmp"

def PROTOCOL_MODBUS : String := "modbus"

def UNKNOWN_NAME : String := "unknown"

def DEFAULT_UNKNOWN_VALUE : String := "unknown"

def InstanceTypePDU : String := "pdu"

def InstanceTypeUnknown : String := "unknown"

/-! ### Data model (from `viot-scanner/models`) -/

/-- `models.Target` with the two protocol-specific match signatures
flattened into fields. -/
structure Target where
  Name : String
  InstanceType : String
  Manufacturer : String
  Model : String
  Protocol : String
  SNMPMatchValueContains : String
  ModbusMatchValueContains : String
  deriving Repr, DecidableEq

/-- `models.Dependencies`. -/
structure Dependency where
  Protocol : String
  SourceTarget : String
  LinkedTarget : List String
  deriving Repr, DecidableEq

/-- `models.ScanInstanceInfo`.  `Uptime` is a Go `int64`, modelled as `Int`. -/
structure ScanInstanceInfo where
  TargetName : String
  IPKey : String
  IP : String
  Port : Nat
  SlaveID : Nat
  Protocol : String
  Model : String
  Version : String
  SerialNumber : String
  SnmpEngineID : String
  SysName : String
  SysDescr : String
  Uptime : Int
  InstanceType : String
  Manufacturer : String
  MacAddress : String
  Factory : String
  Phase : String
  Datacenter : String
  Room : String
  deriving Repr, DecidableEq

/-- The Go zero value of `ScanInstanceInfo`. -/
def ScanInstanceInfo.empty : ScanInstanceInfo :=
  { TargetName := "", IPKey := "", IP := "", Port := 0, SlaveID := 0, Protocol := ""
    Model := "", Version := "", SerialNumber := "", SnmpEngineID := "", SysName := ""
    SysDescr := "", Uptime := 0, InstanceType := "", Manufacturer := "", MacAddress := ""
    Factory := "", Phase := "", Datacenter := "", Room := "" }

/-- `models.SnmpConnInfo`. -/
structure SnmpConnInfo where
  IP : String
  Port : Nat
  Community : String
  Version : Nat
  deriving Repr, DecidableEq

/-- `models.ModbusConnInfo`. -/
structure ModbusConnInfo where
  IP : String
  Port : Nat
  SlaveID : Nat
  Model : String
  Manufacturer : String
  InstanceType : String
  deriving Repr, DecidableEq

/-! ### Uptime normalisation (`parseUptimeToSeconds`, collect.go lines 316-349) -/

/-- Maximum value of a Go `int64`. -/
def INT64_MAX : Nat := 2 ^ 63 - 1

/-- Two's-complement wrap-around of a mathematical integer into `int64`. -/
def wrap64 (x : Int) : Int :=
  (x + 2 ^ 63) % 2 ^ 64 - 2 ^ 63

/-- Go `int64` multiplication (wraps on overflow). -/
def mulw (a b : Int) : Int :=
  wrap64 (a * b)

/-- Digits-only part of Go `strconv.ParseInt(s, 10, 64)`:
`max` is the largest magnitude accepted (`2^63-1` for positive,
`2^63` for negative numbers). -/
def parseInt64Core (rest : List Char) (max : Nat) : Option Nat :=
  if rest = [] then none
  else if ¬ rest.all Char.isDigit then none
  else if digitsVal rest ≤ max then some (digitsVal rest) else none

/-- Go `strconv.ParseInt(s, 10, 64)`: optional sign, decimal digits,
range-checked against `int64`; `none` models a non-nil error. -/
def parseInt64 : List Char → Option Int
  | [] => none
  | c :: rest =>
    if c = '-' then (parseInt64Core rest (2 ^ 63)).map (fun n => -(n : Int))
    else if c = '+' then (parseInt64Core rest INT64_MAX).map (fun n => (n : Int))
    else (parseInt64Core (c :: rest) INT64_MAX).map (fun n => (n : Int))

/-- `services.parseUptimeToSeconds` (collect.go): trim parentheses, split
on a space into exactly two parts, parse the number, scale by the unit.
Any failure yields `0`; the multiplications wrap like Go `int64`. -/
def parseUptimeToSeconds (uptimeStr : String) : Int :=
  if uptimeStr.data = [] then 0
  else
    let trimmed := goTrimParens uptimeStr.data
    match goSplitChar ' ' trimmed with
    | [num, unit] =>
      match parseInt64 num with
      | none => 0
      | some v =>
        if unit = "days".data then mulw (mulw (mulw v 24) 60) 60
        else if unit = "hours".data then mulw (mulw v 60) 60
        else if unit = "minutes".data then mulw v 60
        else if unit = "seconds".data then v
        else 0
    | _ => 0

/-! ### SNMP matching (`collect.go` lines 98-212) -/

/-- Filter applied to each value of one match session's result in
`MatchSnmpInstances`: drop nil, `""`, `" "` and values with no ASCII
letter or digit (the Go regexp `[a-zA-Z0-9]`). -/
def snmpValueKeep (v : Option String) : Option String :=
  match v with
  | none => none
  | some s =>
    if s = "" ∨ s = " " then none
    else if s.data.any (fun c => c.isAlpha || c.isDigit) then some s
    else none

/-- One candidate string: kept values of one match session joined by a
space (`strings.Join(results, " ")`). -/
def candidateOfValues (vals : List (Option String)) : String :=
  String.intercalate " " (vals.filterMap snmpValueKeep)

/-- Candidate list built by `MatchSnmpInstances`: one entry per match
session whose query succeeded (`err != nil || result == nil` skips the
session entirely), in target-configuration order. -/
def buildSnmpCandidates : List (Option (List (Option String))) → List String
  | [] => []
  | none :: rest => buildSnmpCandidates rest
  | some vals :: rest => candidateOfValues vals :: buildSnmpCandidates rest

/-- The `ScanInstanceInfo` built when target `t` matches (collect.go
lines 182-190): identity from the scanned connection, classification
from the target; all other fields keep their zero values. -/
def mkSnmpMatchInfo (ip : String) (port : Nat) (protocol : String) (t : Target) :
    ScanInstanceInfo :=
  { ScanInstanceInfo.empty with
      TargetName := t.Name, IP := ip, Port := port, Protocol := protocol
      Model := t.Model, Manufacturer := t.Manufacturer, InstanceType := t.InstanceType }

/-- The `ScanInstanceInfo` built when no candidate matches (collect.go
lines 198-208).  Note the `IP` field is left at its zero value `""`. -/
def unknownInstanceInfo (snmpPort : Nat) : ScanInstanceInfo :=
  { ScanInstanceInfo.empty with
      TargetName := UNKNOWN_NAME, Port := snmpPort, Protocol := PROTOCOL_SNMP
      Model := DEFAULT_UNKNOWN_VALUE, Manufacturer := DEFAULT_UNKNOWN_VALUE
      InstanceType := InstanceTypeUnknown }

/-- Which detail session `GetSNMPTargetByMatchModelValue` hands back:
`DetailFieldSessions[i]` for a matched target at index `i`, or the
dedicated unknown session. -/
inductive SnmpSessionChoice where
  | detailAt (i : Nat)
  | unknownSession
  deriving Repr, DecidableEq

/-- Inner loop of `GetSNMPTargetByMatchModelValue` over the target
library for one candidate value.  The Go loop has no `break`: every
matching target overwrites `instanceInfo` and the session, so the state
after the loop holds the last match. -/
def snmpTargetScan (ip : String) (port : Nat) (protocol : String) (matchValue : String)
    (st : Option (ScanInstanceInfo × Nat)) (targets : List (Nat × Target)) :
    Option (ScanInstanceInfo × Nat) :=
  targets.foldl
    (fun acc it =>
      if it.2.Protocol ≠ PROTOCOL_SNMP then acc
      else if goContains matchValue it.2.SNMPMatchValueContains then
        some (mkSnmpMatchInfo ip port protocol it.2, it.1)
      else acc)
    st

/-- Outer loop of `GetSNMPTargetByMatchModelValue` over the candidate
list: a candidate equal to `"<nil>"` or `""` is skipped, and so is every
candidate once a match has been recorded (`isMatchInstance`). -/
def snmpCandidateScan (ip : String) (port : Nat) (protocol : String)
    (targets : List (Nat × Target)) :
    List String → Option (ScanInstanceInfo × Nat) → Option (ScanInstanceInfo × Nat)
  | [], st => st
  | v :: vs, st =>
    if v = "<nil>" ∨ v = "" ∨ st.isSome = true then
      snmpCandidateScan ip port protocol targets vs st
    else
      snmpCandidateScan ip port protocol targets vs
        (snmpTargetScan ip port protocol v st targets)

/-- `services.GetSNMPTargetByMatchModelValue` (collect.go lines 164-212).
`libTargets` is `global.SNMPInstanceLib.Targets`; `snmpPort` is
`global.SNMPSettings.Port`, used only for the unknown record. -/
def GetSNMPTargetByMatchModelValue (libTargets : List Target) (snmpPort : Nat)
    (ip : String) (port : Nat) (protocol : String) (matchResult : List String) :
    ScanInstanceInfo × SnmpSessionChoice :=
  match snmpCandidateScan ip port protocol libTargets.enum matchResult none with
  | some (info, i) => (info, .detailAt i)
  | none => (unknownInstanceInfo snmpPort, .unknownSession)

/-- Go map lookup used by `getStringValue`: missing keys give `""`. -/
def getStringValue (m : List (String × String)) (k : String) : String :=
  match m.lookup k with
  | some v => v
  | none => ""

/-- `services.MatchSnmpInstances` (collect.go lines 98-161).
`matchResults` holds, per configured match session, the values its
query returned (`none` = the query failed); `detailResult` is the map
returned by the detail query (empty on failure) and `mac` the ARP
result.  The function always pairs the record with a `none` error,
mirroring the single `return instanceInfo, nil` in the source. -/
def MatchSnmpInstances (libTargets : List Target) (snmpPort : Nat) (conn : SnmpConnInfo)
    (matchResults : List (Option (List (Option String))))
    (detailResult : List (String × String)) (mac : String) :
    ScanInstanceInfo × Option String :=
  let cands := buildSnmpCandidates matchResults
  let info :=
    (GetSNMPTargetByMatchModelValue libTargets snmpPort conn.IP conn.Port
      PROTOCOL_SNMP cands).1
  ({ info with
      MacAddress := mac
      Version := getStringValue detailResult "version"
      SerialNumber := getStringValue detailResult "serial_number"
      SnmpEngineID := getStringValue detailResult "snmp_engine_id"
      SysName := getStringValue detailResult "sys_name"
      SysDescr := getStringValue detailResult "sys_descr"
      Uptime := parseUptimeToSeconds (getStringValue detailResult "uptime") }, none)

/-! ### Per-IP orchestration (`ScanDevice`, collect.go lines 17-66) -/

/-- Outcome of the worker body of `ScanDevice`: the aggregated records
and the list of IPs `MatchModbusInstances` was invoked on. -/
structure ScanDeviceOutcome where
  results : List ScanInstanceInfo
  modbusSweptIPs : List String
  deriving Repr, DecidableEq

/-- The dependency cascade in `ScanDevice` (collect.go lines 39-50): for
every dependency whose source equals the SNMP record's target name, the
Modbus matcher runs against `snmpResult.IP` and its records are
appended.  `modbusOf` is the sweep result for a given IP. -/
def scanDeviceCascade (deps : List Dependency) (snmpResult : ScanInstanceInfo)
    (modbusOf : String → List ScanInstanceInfo) : ScanDeviceOutcome :=
  deps.foldl
    (fun acc d =>
      if snmpResult.TargetName = d.SourceTarget then
        { results := acc.results ++ modbusOf snmpResult.IP
          modbusSweptIPs := acc.modbusSweptIPs ++ [snmpResult.IP] }
      else acc)
    { results := [snmpResult], modbusSweptIPs := [] }

/-- `services.ScanDevice` (collect.go lines 17-66), normal-completion
path of its worker goroutine.  The Modbus cascade runs only when the
error component of `MatchSnmpInstances` is `none` (it always is). -/
def ScanDevice (libTargets : List Target) (snmpPort : Nat) (deps : List Dependency)
    (conn : SnmpConnInfo) (matchResults : List (Option (List (Option String))))
    (detailResult : List (String × String)) (mac : String)
    (modbusOf : String → List ScanInstanceInfo) : ScanDeviceOutcome :=
  let r := MatchSnmpInstances libTargets snmpPort conn matchResults detailResult mac
  match r.2 with
  | some _ => { results := [r.1], modbusSweptIPs := [] }
  | none => scanDeviceCascade deps r.1 modbusOf

/-! ### Modbus matching (`collect.go` lines 215-303, `config.go` lines 251-299, `modbus.go`) -/

/-- `services.allZeros` (modbus.go lines 96-103). -/
def allZeros : List Nat → Bool
  | [] => true
  | b :: rest => if b ≠ 0 then false else allZeros rest

/-- Go `string(bytes)` specialised to byte values. -/
def bytesToString (bytes : List Nat) : String :=
  String.mk (bytes.map Char.ofNat)

/-- One pass of the target loop in `loadModbusInstanceLib` (config.go
lines 263-295) for one (port, slave ID) pair: `mfgs` models the
`mfg_targets` accumulator; every target's manufacturer is appended
before the membership check, so the check can never fail. -/
def modbusLibPassAux (mfgs : List String) (acc : List Target) :
    List Target → List Target
  | [] => acc
  | t :: rest =>
    let mfgs2 := mfgs ++ [t.Manufacturer]
    if t.Protocol ≠ PROTOCOL_MODBUS then modbusLibPassAux mfgs2 acc rest
    else if ¬ mfgs2.contains t.Manufacturer then modbusLibPassAux mfgs2 acc rest
    else modbusLibPassAux mfgs2 (acc ++ [t]) rest

/-- `global.ModbusInstanceLib.Targets` as built by
`loadModbusInstanceLib`: the target loop body runs once per
(port, slave ID) pair and keeps appending to the same slice. -/
def loadModbusLibTargets (ports slaves : List Nat) (targets : List Target) :
    List Target :=
  ports.foldl
    (fun acc _ => slaves.foldl (fun acc2 _ => modbusLibPassAux [] acc2 targets) acc)
    []

/-- Target-comparison loop of `MatchModbusInstances` (collect.go lines
244-257) for one returned value: the loop body ends in an unconditional
`break`, so only the first library target is ever compared. -/
def modbusMatchValue (targets : List Target) (ip : String) (port slave : Nat)
    (modelValue : String) : List ModbusConnInfo :=
  match targets with
  | [] => []
  | t :: _ =>
    if goContains modelValue t.ModbusMatchValueContains then
      [{ IP := ip, Port := port, SlaveID := slave, Model := t.Model
         Manufacturer := t.Manufacturer, InstanceType := t.InstanceType }]
    else []

/-- Match phase for one (port, slave ID) pair: `read` is the byte block
the match register read returned (`none` = read error).  `GetModbusValue`
(modbus.go lines 56-86) turns an empty or all-zero block into an error,
which `MatchModbusInstances` treats as "no device at this pair". -/
def modbusPairMatch (targets : List Target) (ip : String) (port slave : Nat)
    (read : Option (List Nat)) : List ModbusConnInfo :=
  match read with
  | none => []
  | some bytes =>
    if bytes.length = 0 ∨ allZeros bytes then []
    else modbusMatchValue targets ip port slave (bytesToString bytes)

/-! ### CIDR and range utilities (`utils/fping_ip.go`) -/

/-- Number of binary digits of `n`, computed with 32 structural steps;
agrees with Go `bits.Len32` on all inputs below `2 ^ 32`. -/
def bitsLenAux : Nat → Nat → Nat
  | 0, _ => 0
  | fuel + 1, n => if n = 0 then 0 else bitsLenAux fuel (n / 2) + 1

/-- Go `bits.Len32`. -/
def bitsLen32 (n : Nat) : Nat :=
  bitsLenAux 32 n

/-- One octet of a dotted-quad IPv4 literal, following Go
`net.ParseIP`: nonempty, decimal digits, no leading zero, at most 255. -/
def parseOctet (s : List Char) : Option Nat :=
  if s = [] then none
  else if ¬ s.all Char.isDigit then none
  else if 1 < s.length ∧ s.head? = some '0' then none
  else if digitsVal s ≤ 255 then some (digitsVal s) else none

/-- Go `net.ParseIP(s).To4()` followed by `ipToUint32`, for dotted-quad
IPv4 literals (the only form the scanner's configuration uses);
`none` models the nil result. -/
def parseIPv4 (s : String) : Option Nat :=
  match goSplitChar '.' s.data with
  | [a, b, c, d] =>
    match parseOctet a, parseOctet b, parseOctet c, parseOctet d with
    | some x, some y, some z, some w => some (x * 2 ^ 24 + y * 2 ^ 16 + z * 2 ^ 8 + w)
    | _, _, _, _ => none
  | _ => none

/-- `utils.uint32ToIP(n).String()`: dotted-quad rendering. -/
def uint32ToIPString (n : Nat) : String :=
  toString (n / 2 ^ 24 % 256) ++ "." ++ toString (n / 2 ^ 16 % 256) ++ "." ++
    toString (n / 2 ^ 8 % 256) ++ "." ++ toString (n % 256)

/-- Error cases of the range utilities. -/
inductive IPError where
  | invalidAddress
  | rangeOrder
  deriving Repr, DecidableEq

/-- Numeric core of `utils.CalculateCIDR` (fping_ip.go lines 30-36):
XOR the endpoints, take `32 - bits.Len32` as the prefix length and mask
the start address.  The shift of `^uint32(0)` wraps modulo `2 ^ 32`. -/
def calculateCIDRNum (s e : Nat) : Nat × Nat :=
  let diff := s ^^^ e
  let maskLen := 32 - bitsLen32 diff
  let mask := ((2 ^ 32 - 1) <<< (32 - maskLen)) % 2 ^ 32
  (s &&& mask, maskLen)

/-- `utils.CalculateCIDR` (fping_ip.go lines 15-38). -/
def CalculateCIDR (startIP endIP : String) : Except IPError String :=
  match parseIPv4 startIP, parseIPv4 endIP with
  | some s, some e =>
    if s > e then .error .rangeOrder
    else
      let r := calculateCIDRNum s e
      .ok (uint32ToIPString r.1 ++ "/" ++ toString r.2)
  | _, _ => .error .invalidAddress

/-- The loop `for i := startInt; i <= endInt; i++` of `utils.ExpandRange`
(fping_ip.go lines 56-59), with the `uint32` increment wrapping modulo
`2 ^ 32`.  `fuel` bounds the number of iterations we are willing to
unfold; `none` means the loop did not finish within `fuel` steps. -/
def expandLoop : Nat → Nat → Nat → List Nat → Option (List Nat)
  | 0, _, _, _ => none
  | fuel + 1, i, e, acc =>
    if i ≤ e then expandLoop fuel ((i + 1) % 2 ^ 32) e (acc ++ [i])
    else some acc

/-- `utils.ExpandRange` (fping_ip.go lines 41-61).  `.ok none` means the
enumeration loop ran forever (never reached its exit condition). -/
def ExpandRange (fuel : Nat) (startIP endIP : String) :
    Except IPError (Option (List String)) :=
  match parseIPv4 startIP, parseIPv4 endIP with
  | some s, some e =>
    if s > e then .error .rangeOrder
    else .ok ((expandLoop fuel s e []).map (List.map uint32ToIPString))
  | _, _ => .error .invalidAddress

/-! ### Liveness prober (`utils.ExecuteFping`, fping_ip.go lines 64-98) -/

/-- Lines produced by `bufio.Scanner` over the command output: split on
newline, drop the empty token after a trailing newline, strip a
trailing carriage return. -/
def goLines (s : String) : List String :=
  let parts := goSplitChar '\n' s.data
  let parts := if parts.getLast? = some [] then parts.dropLast else parts
  parts.map (fun l => String.mk (if l.getLast? = some '\r' then l.dropLast else l))

/-- Per-line parsing in `ExecuteFping`: keep a line that splits into
exactly two `:`-separated fields whose second field has no `-`, and
return the first field with surrounding whitespace trimmed. -/
def parseFpingLine (line : String) : Option String :=
  match goSplitChar ':' line.data with
  | [host, res] =>
    if res.contains '-' then none
    else some (String.mk (trimSpaceChars host))
  | _ => none

/-- `utils.ExecuteFping`, with the external command's combined output
and error passed in as oracles.  The source discards the error
(`output, _ := cmd.CombinedOutput()`) and unconditionally returns
`nil` as its own error, so the second component is always `none`. -/
def ExecuteFping (cmdOutput : String) (_cmdErr : Option String) :
    List String × Option String :=
  ((goLines cmdOutput).filterMap parseFpingLine, none)

/-- Specification-side alive test (for the refinement theorem about
`ExecuteFping`): the line has exactly one `:`-delimited field pair and
the result side contains no `-`. -/
def specAliveLine (line : String) : Bool :=
  (goSplitChar ':' line.data).length == 2 &&
    !((goSplitChar ':' line.data).getD 1 []).contains '-'

/-- Specification-side host extraction: trimmed first field. -/
def specHostOf (line : String) : String :=
  String.mk (trimSpaceChars ((goSplitChar ':' line.data).getD 0 []))

/-! ### Dedup and persistence (`part_002`, `global.go` lines 49-65) -/

/-- Identity-key derivation in `FilteredResults` (part_002 lines 52-59):
`ip:port`, overridden to `ip:port:slave` for Modbus (the SNMP case
restates the default). -/
def mkIPKey (r : ScanInstanceInfo) : String :=
  if r.Protocol = PROTOCOL_MODBUS then
    r.IP ++ ":" ++ toString r.Port ++ ":" ++ toString r.SlaveID
  else r.IP ++ ":" ++ toString r.Port

/-- `global.InitScanList` (global.go lines 49-65): the pending index is
the concatenation of the `ip_key` columns of the two on-disk pending
lists (`scan_pdu.csv`, `scan_device.csv`); registry files are not read. -/
def InitScanList (scanPduKeys scanDeviceKeys : List String) : List String :=
  scanPduKeys ++ scanDeviceKeys

/-- `services.FilteredResults` (part_002 lines 43-73).  The final
already-registered check (`global.ScanResults`) sits after the append
and both of its branches fall through to the next iteration, which the
embedding keeps as an `if` with identical arms. -/
def FilteredResults (scanIPKeyList scanResultsKeys : List String) :
    List ScanInstanceInfo → List ScanInstanceInfo
  | [] => []
  | r :: rest =>
    if r.Model = DEFAULT_UNKNOWN_VALUE then
      FilteredResults scanIPKeyList scanResultsKeys rest
    else
      let ipKey := mkIPKey r
      let kept :=
        if scanIPKeyList.contains ipKey then []
        else [{ r with IPKey := ipKey }]
      if scanResultsKeys.contains ipKey then
        kept ++ FilteredResults scanIPKeyList scanResultsKeys rest
      else
        kept ++ FilteredResults scanIPKeyList scanResultsKeys rest

/-- `services.ClassifyResults` (collect.go lines 79-90): split into PDU
records and everything else, order preserved. -/
def ClassifyResults (results : List ScanInstanceInfo) :
    List ScanInstanceInfo × List ScanInstanceInfo :=
  (results.filter (fun r => r.InstanceType == InstanceTypePDU),
   results.filter (fun r => !(r.InstanceType == InstanceTypePDU)))

/-- Header of `scan_pdu.csv` (part_002 lines 17-29). -/
def pending_pdu_header : List String :=
  ["ip_key", "model", "ip", "protocol", "version", "serial_number",
   "mac_address", "instance_type", "manufacturer", "uptime", "updated_at"]

/-- Header of `scan_device.csv` (part_002 lines 30-40). -/
def pending_device_header : List String :=
  ["ip_key", "ip", "protocol", "model", "mac_address", "instance_type",
   "manufacturer", "uptime", "updated_at"]

/-- Row written for one PDU record (part_002 lines 154-167). -/
def mkPDURecord (now : String) (r : ScanInstanceInfo) : List String :=
  [r.IPKey, r.Model, r.IP, r.Protocol, r.Version, r.SerialNumber,
   r.MacAddress, r.InstanceType, r.Manufacturer, toString r.Uptime, now]

/-- Row written for one non-PDU record (part_002 lines 168-180). -/
def mkDeviceRecord (now : String) (r : ScanInstanceInfo) : List String :=
  [r.IPKey, r.IP, r.Protocol, r.Model, r.MacAddress, r.InstanceType,
   r.Manufacturer, toString r.Uptime, now]

/-- `services.saveToCSV` (part_002 lines 115-188) at the file level:
`fileRows` is the current file content (`none` = the file does not
exist).  A missing file gets the header first; rows are then appended
in order with `O_APPEND`. -/
def saveToCSV (fileRows : Option (List (List String))) (isPDU : Bool) (now : String)
    (results : List ScanInstanceInfo) : List (List String) :=
  let header := if isPDU then pending_pdu_header else pending_device_header
  let base := match fileRows with | none => [header] | some rows => rows
  base ++ results.map (fun r => if isPDU then mkPDURecord now r else mkDeviceRecord now r)

/-- The two pending-list files. -/
structure PendingFiles where
  pduFile : Option (List (List String))
  deviceFile : Option (List (List String))
  deriving Repr, DecidableEq

/-- `services.SaveResults` (part_002 lines 76-112): filter, classify,
and append each nonempty class to its file; returns the new file states
and the filtered records handed back to the caller. -/
def SaveResults (scanIPKeyList scanResultsKeys : List String) (files : PendingFiles)
    (now : String) (results : List ScanInstanceInfo) :
    PendingFiles × List ScanInstanceInfo :=
  let filtered := FilteredResults scanIPKeyList scanResultsKeys results
  let pduResult := (ClassifyResults filtered).1
  let deviceResult := (ClassifyResults filtered).2
  if pduResult = [] ∧ deviceResult = [] then (files, [])
  else
    ({ pduFile :=
         if pduResult = [] then files.pduFile
         else some (saveToCSV files.pduFile true now pduResult)
       deviceFile :=
         if deviceResult = [] then files.deviceFile
         else some (saveToCSV files.deviceFile false now deviceResult) }, filtered)

/-! ### Specification-side functions for the SNMP matching refinement -/

/-- Does any SNMP-protocol target's signature occur in candidate `v`? -/
def candidateMatchesSome (targets : List (Nat × Target)) (v : String) : Bool :=
  targets.any (fun it =>
    it.2.Protocol == PROTOCOL_SNMP && goContains v it.2.SNMPMatchValueContains)

/-- First candidate that is not skipped and matches some target. -/
def firstMatchingCandidate (targets : List (Nat × Target)) (cands : List String) :
    Option String :=
  cands.find? (fun v =>
    !(v == "<nil>" || v == "") && candidateMatchesSome targets v)

/-- Last target (in configuration order) whose signature occurs in `v`. -/
def lastMatchingTarget (targets : List (Nat × Target)) (v : String) :
    Option (Nat × Target) :=
  (targets.filter (fun it =>
    it.2.Protocol == PROTOCOL_SNMP && goContains v it.2.SNMPMatchValueContains)).getLast?

/-! ### Concrete sample configurations used by counterexamples and witnesses -/

/-- Sample SNMP target "A" with signature `"PDU"`. -/
def c1TargetA : Target :=
  { Name := "A", InstanceType := "pdu", Manufacturer := "m", Model := "ModelA"
    Protocol := "snmp", SNMPMatchValueContains := "PDU", ModbusMatchValueContains := "" }

/-- Sample SNMP target "B" with signature `"PDUX"`, configured after "A". -/
def c1TargetB : Target :=
  { Name := "B", InstanceType := "pdu", Manufacturer := "m", Model := "ModelB"
    Protocol := "snmp", SNMPMatchValueContains := "PDUX", ModbusMatchValueContains := "" }

/-- Sample dependency whose source target is the reserved unknown name. -/
def c2Dep : Dependency :=
  { Protocol := "modbus", SourceTarget := "unknown", LinkedTarget := [] }

/-- Sample SNMP connection parameters. -/
def c2Conn : SnmpConnInfo :=
  { IP := "10.1.1.1", Port := 161, Community := "public", Version := 2 }

/-- Sample identified PDU record (before its identity key is filled in). -/
def c3Sample : ScanInstanceInfo :=
  { ScanInstanceInfo.empty with
      TargetName := "T", IP := "10.0.0.9", Port := 161, Protocol := "snmp"
      Model := "M1", InstanceType := "pdu" }

/-- Sample SNMP-protocol target placed before the Modbus targets. -/
def c5SnmpTarget : Target :=
  { Name := "S", InstanceType := "switch", Manufacturer := "hpe", Model := "SW"
    Protocol := "snmp", SNMPMatchValueContains := "X", ModbusMatchValueContains := "" }

/-- First configured Modbus target, signature `"AAA"`. -/
def c5ModbusTarget1 : Target :=
  { Name := "M1", InstanceType := "pdu", Manufacturer := "delta", Model := "mm1"
    Protocol := "modbus", SNMPMatchValueContains := "", ModbusMatchValueContains := "AAA" }

/-- Second configured Modbus target, signature `"BBB"`. -/
def c5ModbusTarget2 : Target :=
  { Name := "M2", InstanceType := "pdu", Manufacturer := "delta", Model := "mm2"
    Protocol := "modbus", SNMPMatchValueContains := "", ModbusMatchValueContains := "BBB" }

/-- Sample non-PDU record carrying version and serial-number details. -/
def c9DeviceSample : ScanInstanceInfo :=
  { ScanInstanceInfo.empty with
      TargetName := "S", IPKey := "10.0.0.8:161", IP := "10.0.0.8", Port := 161
      Protocol := "snmp", Model := "SW1", Version := "V9", SerialNumber := "SN7"
      InstanceType := "switch" }

/-! ## Theorems -/

/-! ### Generic list helpers -/

theorem vGetLast?_cons (a : α) (l : List α) :
    (a :: l).getLast? = match l.getLast? with | none => some a | some b => some b := by
  induction l generalizing a with
  | nil => rfl
  | cons b t ih =>
    rw [List.getLast?_cons_cons, ih b]
    cases h : t.getLast? <;> simp [ih, h]

theorem vFoldl_append_const (F : List α) :
    ∀ (l : List β) (acc : List α),
      l.foldl (fun a _ => a ++ F) acc = acc ++ (List.replicate l.length F).flatten := by
  intro l
  induction l with
  | nil => intro acc; simp
  | cons x t ih =>
    intro acc
    simp only [List.foldl_cons, ih, List.length_cons, List.replicate_succ,
      List.flatten_cons, List.append_assoc]

theorem vFlatten_replicate_nil (n : Nat) : (List.replicate n ([] : List α)).flatten = [] := by
  induction n with
  | zero => rfl
  | succ k ih => simp [List.replicate_succ, ih]

theorem vHead?_flatten_replicate (n : Nat) (hn : n ≠ 0) (X : List α) :
    ((List.replicate n X).flatten).head? = X.head? := by
  cases n with
  | zero => exact absurd rfl hn
  | succ k =>
    cases X with
    | nil => simp [vFlatten_replicate_nil]
    | cons a t => simp [List.replicate_succ]

theorem vHead?_filter (p : α → Bool) (l : List α) :
    (l.filter p).head? = l.find? p := by
  induction l with
  | nil => rfl
  | cons a t ih =>
    by_cases h : p a = true
    · simp [List.filter_cons, List.find?_cons, h]
    · simp only [List.filter_cons, List.find?_cons]
      rw [if_neg (by simp [h]), ih]
      cases hpa : p a
      · rfl
      · exact absurd hpa h

/-! ### C10 -/

/-- C10: the output of FilteredResults does not depend on the in-memory
registered-results map: for any two contents of the ScanResults key set,
the same input list and the same pending index give the same filtered
list, because the already-registered check runs after the append and
both of its branches continue identically. -/
theorem filteredResults_independent_of_scanResults :
    ∀ (keyList sr1 sr2 : List String) (rs : List ScanInstanceInfo),
      FilteredResults keyList sr1 rs = FilteredResults keyList sr2 rs := by
  intro keyList sr1 sr2 rs
  induction rs with
  | nil => rfl
  | cons r rest ih =>
    simp only [FilteredResults]
    split
    · exact ih
    · split <;> split <;> simp [ih]

/-! ### C9 -/

/-- C9 counterexample: a row appended to the generic-device pending list
does not carry the version or serial-number columns.  The concrete
record has version `"V9"` and serial number `"SN7"`, yet neither value
appears in the appended row, and the device header has only 9 columns,
with no `"version"` or `"serial_number"` entry. -/
theorem pending_device_row_missing_columns :
    saveToCSV (some []) false "T0" [c9DeviceSample] =
      [["10.0.0.8:161", "10.0.0.8", "snmp", "SW1", "", "switch", "", "0", "T0"]]
    ∧ ((saveToCSV (some []) false "T0" [c9DeviceSample]).all
        (fun row => !(row.contains "V9" || row.contains "SN7"))) = true
    ∧ pending_device_header.contains "version" = false
    ∧ pending_device_header.contains "serial_number" = false
    ∧ pending_device_header.length = 9 := by
  refine ⟨rfl, by decide, by decide, by decide, by decide⟩

/-- C9 (amended): appending to an existing pending file only appends the
new rows after the existing ones; a missing file gets its header exactly
once, before the rows.  PDU rows carry identity key, model, IP,
protocol, version, serial number, MAC address, instance type,
manufacturer, uptime-seconds and the update timestamp, in header order;
generic-device rows carry only identity key, IP, protocol, model, MAC
address, instance type, manufacturer, uptime-seconds and the timestamp
(no version or serial-number column). -/
theorem saveToCSV_append_only_columns :
    ∀ (rows : List (List String)) (isPDU : Bool) (now : String)
      (results : List ScanInstanceInfo),
      saveToCSV (some rows) isPDU now results =
        rows ++ results.map (fun r => if isPDU then mkPDURecord now r else mkDeviceRecord now r)
      ∧ saveToCSV none isPDU now results =
          (if isPDU then pending_pdu_header else pending_device_header)
            :: results.map (fun r => if isPDU then mkPDURecord now r else mkDeviceRecord now r)
      ∧ (∀ r, pending_pdu_header.zip (mkPDURecord now r) =
          [("ip_key", r.IPKey), ("model", r.Model), ("ip", r.IP), ("protocol", r.Protocol),
           ("version", r.Version), ("serial_number", r.SerialNumber),
           ("mac_address", r.MacAddress), ("instance_type", r.InstanceType),
           ("manufacturer", r.Manufacturer), ("uptime", toString r.Uptime),
           ("updated_at", now)])
      ∧ (∀ r, pending_device_header.zip (mkDeviceRecord now r) =
          [("ip_key", r.IPKey), ("ip", r.IP), ("protocol", r.Protocol), ("model", r.Model),
           ("mac_address", r.MacAddress), ("instance_type", r.InstanceType),
           ("manufacturer", r.Manufacturer), ("uptime", toString r.Uptime),
           ("updated_at", now)]) := by
  intro rows isPDU now results
  refine ⟨rfl, rfl, fun r => rfl, fun r => rfl⟩

/-! ### C6 -/

theorem vExpandLoop_broadcast :
    ∀ (fuel i : Nat) (acc : List Nat), i < 2 ^ 32 →
      expandLoop fuel i (2 ^ 32 - 1) acc = none := by
  intro fuel
  induction fuel with
  | zero => intro i acc _; rfl
  | succ f ih =>
    intro i acc hi
    have hle : i ≤ 2 ^ 32 - 1 := by omega
    simp only [expandLoop, if_pos hle]
    exact ih _ _ (Nat.mod_lt _ (by norm_num))

/-- C6: on the boundary input end = 255.255.255.255 the enumeration loop
of ExpandRange never terminates: the uint32 counter wraps to 0 and the
condition i less-or-equal end stays true forever, so no fuel bound
suffices.  On ordinary inputs the function behaves as the claim says:
10.0.0.1 to 10.0.0.3 yields the three addresses in ascending order, and
a reversed pair is a range-order error. -/
theorem expandRange_nonterminating_at_broadcast :
    (∀ fuel, ExpandRange fuel "255.255.255.254" "255.255.255.255" = .ok none)
    ∧ ExpandRange 10 "10.0.0.1" "10.0.0.3" =
        .ok (some ["10.0.0.1", "10.0.0.2", "10.0.0.3"])
    ∧ ExpandRange 10 "10.0.0.3" "10.0.0.1" = .error .rangeOrder := by
  refine ⟨?_, by rfl, by rfl⟩
  intro fuel
  have h1 : parseIPv4 "255.255.255.254" = some 4294967294 := by decide
  have h2 : parseIPv4 "255.255.255.255" = some 4294967295 := by decide
  simp only [ExpandRange, h1, h2]
  rw [if_neg (by decide)]
  have : expandLoop fuel 4294967294 (2 ^ 32 - 1) [] = none :=
    vExpandLoop_broadcast fuel 4294967294 [] (by norm_num)
  rw [show (4294967295 : Nat) = 2 ^ 32 - 1 by norm_num, this]
  rfl

/-! ### C3 -/

theorem vMkIPKey_set_key (r : ScanInstanceInfo) (k : String) :
    mkIPKey { r with IPKey := k } = mkIPKey r := rfl

theorem vFilteredResults_mem (keyList scanKeys : List String) :
    ∀ (rs : List ScanInstanceInfo) (x : ScanInstanceInfo),
      x ∈ FilteredResults keyList scanKeys rs →
      x.IPKey ∉ keyList ∧ x.IPKey = mkIPKey x ∧ x.Model ≠ DEFAULT_UNKNOWN_VALUE := by
  intro rs
  induction rs with
  | nil => intro x hx; simp [FilteredResults] at hx
  | cons r rest ih =>
    intro x hx
    by_cases hModel : r.Model = DEFAULT_UNKNOWN_VALUE
    · simp only [FilteredResults, if_pos hModel] at hx
      exact ih x hx
    · simp only [FilteredResults, if_neg hModel, ite_self] at hx
      rcases List.mem_append.1 hx with hx1 | hx2
      · by_cases hk : mkIPKey r ∈ keyList
        · rw [if_pos (by simpa using hk)] at hx1
          simp at hx1
        · rw [if_neg (by simpa using hk)] at hx1
          have hxe : x = { r with IPKey := mkIPKey r } := by simpa using hx1
          subst hxe
          refine ⟨by simpa using hk, by simp [vMkIPKey_set_key], by simpa using hModel⟩
      · exact ih x hx2

/-- C3 (amended): every record SaveResults appends has its freshly
recomputed identity key, that key is absent from the pending index
(which InitScanList builds from the two on-disk pending lists alone;
registry lists are not consulted), and its model is not the unknown
default.  Duplicate identity keys within one batch are NOT collapsed:
the filter consults only the cycle-start index, so two records with the
same key both pass (see the counterexample). -/
theorem filteredResults_excludes_pending_index :
    ∀ (scanPduKeys scanDeviceKeys scanResultsKeys : List String)
      (results : List ScanInstanceInfo),
      ((FilteredResults (InitScanList scanPduKeys scanDeviceKeys) scanResultsKeys
          results).all
        (fun r => !((InitScanList scanPduKeys scanDeviceKeys).contains r.IPKey) &&
          (r.IPKey == mkIPKey r) && !(r.Model == DEFAULT_UNKNOWN_VALUE))) = true := by
  intro pk dk sk rs
  rw [List.all_eq_true]
  intro x hx
  obtain ⟨h1, h2, h3⟩ := vFilteredResults_mem (InitScanList pk dk) sk rs x hx
  simp only [Bool.and_eq_true, Bool.not_eq_true', beq_iff_eq]
  exact ⟨⟨by simpa using h1, h2⟩, beq_eq_false_iff_ne.2 h3⟩

/-- C3 counterexample: two identical records with the same identity key
in one batch are both appended by SaveResults — the pending-PDU file
receives the same row twice, so a persistence cycle does not collapse
duplicate identity keys. -/
theorem saveResults_duplicate_keys_counterexample :
    (SaveResults [] [] ⟨some [pending_pdu_header], none⟩ "T0" [c3Sample, c3Sample]).1.pduFile
      = some [pending_pdu_header,
          ["10.0.0.9:161", "M1", "10.0.0.9", "snmp", "", "", "", "pdu", "", "0", "T0"],
          ["10.0.0.9:161", "M1", "10.0.0.9", "snmp", "", "", "", "pdu", "", "0", "T0"]] := by
  decide

/-! ### C7 -/

theorem vFilterMap_parseFpingLine (lines : List String) :
    lines.filterMap parseFpingLine = (lines.filter specAliveLine).map specHostOf := by
  induction lines with
  | nil => rfl
  | cons l rest ih =>
    simp only [List.filterMap_cons, List.filter_cons]
    rcases hsplit : goSplitChar ':' l.data with _ | ⟨a, _ | ⟨b, _ | ⟨c, more⟩⟩⟩
    · simp [parseFpingLine, specAliveLine, hsplit, ih]
    · simp [parseFpingLine, specAliveLine, hsplit, ih]
    · by_cases hb : '-' ∈ b
      · simp [parseFpingLine, specAliveLine, hsplit, hb, ih]
      · simp [parseFpingLine, specAliveLine, specHostOf, hsplit, hb, ih]
    · simp [parseFpingLine, specAliveLine, hsplit, ih]

/-- C7 (amended): ExecuteFping returns exactly the trimmed host fields
of those output lines that split into exactly two colon-delimited
fields with no dash on the result side, and it never returns an error
at all: the invocation error of the external command is discarded
(`output, _ := cmd.CombinedOutput()`), so even an OS-level failure to
invoke the sweep tool yields an empty host list with a nil error. -/
theorem executeFping_parse_no_error :
    ∀ (out : String) (err : Option String),
      ExecuteFping out err = (((goLines out).filter specAliveLine).map specHostOf, none) := by
  intro out err
  simp only [ExecuteFping, vFilterMap_parseFpingLine]

/-- C7 counterexample: an OS-level invocation failure (modelled by the
error oracle being set and the combined output empty) is not returned
to the caller: ExecuteFping answers with an empty host list and a nil
error, contradicting the claim that OS-level invocation failure is a
hard error for the caller. -/
theorem executeFping_swallows_invocation_error :
    ExecuteFping "" (some "fork-exec fping: no such file or directory") = ([], none) := by
  rfl

/-! ### C1 -/

theorem vSnmpTargetScan_eq (ip : String) (port : Nat) (protocol : String) (v : String) :
    ∀ (ts : List (Nat × Target)) (st : Option (ScanInstanceInfo × Nat)),
      snmpTargetScan ip port protocol v st ts =
        match lastMatchingTarget ts v with
        | none => st
        | some it => some (mkSnmpMatchInfo ip port protocol it.2, it.1) := by
  intro ts
  induction ts with
  | nil => intro st; rfl
  | cons it rest ih =>
    intro st
    by_cases hp : (it.2.Protocol == PROTOCOL_SNMP &&
        goContains v it.2.SNMPMatchValueContains) = true
    · have hproto : ¬ it.2.Protocol ≠ PROTOCOL_SNMP := by
        simp only [Bool.and_eq_true, beq_iff_eq] at hp
        simp [hp.1]
      have hcont : goContains v it.2.SNMPMatchValueContains = true := by
        simp only [Bool.and_eq_true] at hp
        exact hp.2
      simp only [snmpTargetScan, List.foldl_cons, if_neg hproto, if_pos hcont]
      rw [show (List.foldl _ (some (mkSnmpMatchInfo ip port protocol it.2, it.1)) rest :
            Option (ScanInstanceInfo × Nat)) =
          snmpTargetScan ip port protocol v
            (some (mkSnmpMatchInfo ip port protocol it.2, it.1)) rest from rfl]
      rw [ih]
      have hcons : lastMatchingTarget (it :: rest) v =
          match lastMatchingTarget rest v with
          | none => some it
          | some b => some b := by
        simp only [lastMatchingTarget, List.filter_cons, hp, if_true]
        rw [vGetLast?_cons]
        cases h : (rest.filter (fun jt => jt.2.Protocol == PROTOCOL_SNMP &&
            goContains v jt.2.SNMPMatchValueContains)).getLast? <;> rfl
      rw [hcons]
      cases h : lastMatchingTarget rest v with
      | none => simp [h]
      | some jt => simp [h]
    · have hstep :
          (if it.2.Protocol ≠ PROTOCOL_SNMP then st
           else if goContains v it.2.SNMPMatchValueContains then
             some (mkSnmpMatchInfo ip port protocol it.2, it.1)
           else st) = st := by
        by_cases hproto : it.2.Protocol = PROTOCOL_SNMP
        · have hcont : ¬ goContains v it.2.SNMPMatchValueContains = true := by
            intro hc
            exact hp (by simp [hproto, hc])
          simp [hproto, hcont]
        · simp [hproto]
      simp only [snmpTargetScan, List.foldl_cons]
      rw [show (if it.2.Protocol ≠ PROTOCOL_SNMP then st
           else if goContains v it.2.SNMPMatchValueContains then
             some (mkSnmpMatchInfo ip port protocol it.2, it.1)
           else st) = st from hstep]
      rw [show (List.foldl _ st rest : Option (ScanInstanceInfo × Nat)) =
          snmpTargetScan ip port protocol v st rest from rfl, ih]
      simp only [lastMatchingTarget, List.filter_cons, hp]
      simp

theorem vSnmpCandidateScan_some (ip : String) (port : Nat) (protocol : String)
    (ts : List (Nat × Target)) :
    ∀ (cands : List String) (x : ScanInstanceInfo × Nat),
      snmpCandidateScan ip port protocol ts cands (some x) = some x := by
  intro cands
  induction cands with
  | nil => intro x; rfl
  | cons v vs ih =>
    intro x
    simp only [snmpCandidateScan]
    rw [if_pos (by simp)]
    exact ih x

theorem vSnmpCandidateScan_spec (ip : String) (port : Nat) (protocol : String)
    (ts : List (Nat × Target)) :
    ∀ (cands : List String),
      snmpCandidateScan ip port protocol ts cands none =
        match firstMatchingCandidate ts cands with
        | none => none
        | some v =>
          (lastMatchingTarget ts v).map
            (fun it => (mkSnmpMatchInfo ip port protocol it.2, it.1)) := by
  intro cands
  induction cands with
  | nil => rfl
  | cons v vs ih =>
    by_cases hskip : v = "<nil>" ∨ v = ""
    · have hpred : (!(v == "<nil>" || v == "") && candidateMatchesSome ts v) = false := by
        rcases hskip with h | h <;> simp [h]
      simp only [snmpCandidateScan]
      rw [if_pos (by rcases hskip with h | h <;> simp [h])]
      rw [ih]
      simp only [firstMatchingCandidate, List.find?_cons, hpred]
    · by_cases hmatch : candidateMatchesSome ts v = true
      · have hpred : (!(v == "<nil>" || v == "") && candidateMatchesSome ts v) = true := by
          simp only [hmatch, Bool.and_true, Bool.not_eq_true', Bool.or_eq_false_iff,
            beq_eq_false_iff_ne]
          exact ⟨fun h => hskip (Or.inl h), fun h => hskip (Or.inr h)⟩
        have hfilter :
            (ts.filter (fun it => it.2.Protocol == PROTOCOL_SNMP &&
              goContains v it.2.SNMPMatchValueContains)) ≠ [] := by
          intro hnil
          obtain ⟨it, hmem, hit⟩ := List.any_eq_true.1 hmatch
          exact (List.filter_eq_nil_iff.1 hnil) it hmem (by simp [hit])
        obtain ⟨jt, hjt⟩ : ∃ jt, lastMatchingTarget ts v = some jt := by
          have := List.getLast?_isSome (l :=
            ts.filter (fun it => it.2.Protocol == PROTOCOL_SNMP &&
              goContains v it.2.SNMPMatchValueContains))
          rw [lastMatchingTarget]
          cases h : (ts.filter (fun it => it.2.Protocol == PROTOCOL_SNMP &&
              goContains v it.2.SNMPMatchValueContains)).getLast? with
          | none =>
            exfalso
            have := this.2 hfilter
            rw [h] at this
            simp at this
          | some jt => exact ⟨jt, rfl⟩
        simp only [snmpCandidateScan]
        rw [if_neg (by
          simp only [Option.isSome_none, Bool.false_eq_true, or_false]
          exact fun h => hskip h)]
        rw [vSnmpTargetScan_eq, hjt]
        rw [vSnmpCandidateScan_some]
        have hfst : firstMatchingCandidate ts (v :: vs) = some v := by
          simp only [firstMatchingCandidate, List.find?_cons, hpred]
        rw [hfst]
        show some (mkSnmpMatchInfo ip port protocol jt.2, jt.1) =
          Option.map (fun it => (mkSnmpMatchInfo ip port protocol it.2, it.1))
            (lastMatchingTarget ts v)
        rw [hjt]
        rfl
      · have hpred : (!(v == "<nil>" || v == "") && candidateMatchesSome ts v) = false := by
          simp [hmatch]
        have hlast : lastMatchingTarget ts v = none := by
          have hfe : (ts.filter (fun it => it.2.Protocol == PROTOCOL_SNMP &&
              goContains v it.2.SNMPMatchValueContains)) = [] := by
            rw [List.filter_eq_nil_iff]
            intro it hmem hit
            exact hmatch (List.any_eq_true.2 ⟨it, hmem, hit⟩)
          rw [lastMatchingTarget, hfe]
          rfl
        simp only [snmpCandidateScan]
        rw [if_neg (by
          simp only [Option.isSome_none, Bool.false_eq_true, or_false]
          exact fun h => hskip h)]
        rw [vSnmpTargetScan_eq, hlast, ih]
        simp only [firstMatchingCandidate, List.find?_cons, hpred]

theorem vMatchMapElim (ip : String) (port : Nat) (protocol : String) (snmpPort : Nat)
    (o : Option (Nat × Target)) :
    (match o.map (fun it => (mkSnmpMatchInfo ip port protocol it.2, it.1)) with
      | some (info, i) => (info, SnmpSessionChoice.detailAt i)
      | none => (unknownInstanceInfo snmpPort, SnmpSessionChoice.unknownSession)) =
      o.elim (unknownInstanceInfo snmpPort, SnmpSessionChoice.unknownSession)
        (fun it => (mkSnmpMatchInfo ip port protocol it.2, .detailAt it.1)) := by
  cases o <;> rfl

theorem vGetSNMPTarget_eq_spec (libTargets : List Target) (snmpPort : Nat)
    (ip : String) (port : Nat) (protocol : String) (matchResult : List String) :
    GetSNMPTargetByMatchModelValue libTargets snmpPort ip port protocol matchResult =
      match firstMatchingCandidate libTargets.enum matchResult with
      | none => (unknownInstanceInfo snmpPort, .unknownSession)
      | some v =>
        (lastMatchingTarget libTargets.enum v).elim
          (unknownInstanceInfo snmpPort, .unknownSession)
          (fun it => (mkSnmpMatchInfo ip port protocol it.2, .detailAt it.1)) := by
  rw [GetSNMPTargetByMatchModelValue, vSnmpCandidateScan_spec]
  cases hfst : firstMatchingCandidate libTargets.enum matchResult with
  | none => rfl
  | some v =>
    exact vMatchMapElim ip port protocol snmpPort (lastMatchingTarget libTargets.enum v)

/-- C1 (amended): the classifier scans the candidate list in order,
skipping empty and nil-rendered candidates; the first candidate in
which any configured SNMP target's signature occurs decides the
classification, and within that candidate the LAST matching target in
configuration order wins (the Go target loop has no break, so later
matching targets overwrite earlier ones); once a candidate has matched,
no later candidate is evaluated.  If nothing matches, the reserved
unknown record and unknown detail session are returned. -/
theorem snmp_match_last_target_wins :
    ∀ (libTargets : List Target) (snmpPort : Nat) (ip : String) (port : Nat)
      (protocol : String) (matchResult : List String),
      GetSNMPTargetByMatchModelValue libTargets snmpPort ip port protocol matchResult =
        match firstMatchingCandidate libTargets.enum matchResult with
        | none => (unknownInstanceInfo snmpPort, .unknownSession)
        | some v =>
          (lastMatchingTarget libTargets.enum v).elim
            (unknownInstanceInfo snmpPort, .unknownSession)
            (fun it => (mkSnmpMatchInfo ip port protocol it.2, .detailAt it.1)) := by
  intro libTargets snmpPort ip port protocol matchResult
  exact vGetSNMPTarget_eq_spec libTargets snmpPort ip port protocol matchResult

/-- C1 counterexample: with target A (signature "PDU") configured before
target B (signature "PDUX"), the candidate "PDUX-1000" classifies as B,
not A — both signatures occur in the candidate and the target loop's
missing break lets the later match overwrite the earlier one, so the
claim's "first match wins over targets" is false on the code. -/
theorem snmp_first_match_claim_counterexample :
    (GetSNMPTargetByMatchModelValue [c1TargetA, c1TargetB] 161 "10.0.0.5" 161
        PROTOCOL_SNMP ["PDUX-1000"]).1.TargetName = "B"
    ∧ c1TargetA.Name = "A"
    ∧ c1TargetA.SNMPMatchValueContains = "PDU"
    ∧ c1TargetB.SNMPMatchValueContains = "PDUX"
    ∧ goContains "PDUX-1000" "PDU" = true
    ∧ goContains "PDUX-1000" "PDUX" = true
    ∧ "B" ≠ "A" := by
  refine ⟨by decide, rfl, rfl, rfl, by decide, by decide, by decide⟩

/-! ### C2 -/

theorem vCascadeFold (r : ScanInstanceInfo) (m : String → List ScanInstanceInfo) :
    ∀ (deps : List Dependency) (acc : ScanDeviceOutcome),
      deps.foldl
        (fun acc d =>
          if r.TargetName = d.SourceTarget then
            { results := acc.results ++ m r.IP
              modbusSweptIPs := acc.modbusSweptIPs ++ [r.IP] }
          else acc) acc =
      { results := acc.results ++
          (List.replicate (deps.countP (fun d => r.TargetName == d.SourceTarget))
            (m r.IP)).flatten
        modbusSweptIPs := acc.modbusSweptIPs ++
          List.replicate (deps.countP (fun d => r.TargetName == d.SourceTarget)) r.IP } := by
  intro deps
  induction deps with
  | nil => intro acc; simp [List.countP_nil]
  | cons d ds ih =>
    intro acc
    by_cases hd : r.TargetName = d.SourceTarget
    · rw [List.foldl_cons, if_pos hd, ih]
      have hcount : (d :: ds).countP (fun d => r.TargetName == d.SourceTarget) =
          ds.countP (fun d => r.TargetName == d.SourceTarget) + 1 :=
        List.countP_cons_of_pos _ _ (by simp [hd])
      rw [hcount]
      simp [List.replicate_succ, List.flatten_cons, List.append_assoc]
    · rw [List.foldl_cons, if_neg hd, ih]
      have hcount : (d :: ds).countP (fun d => r.TargetName == d.SourceTarget) =
          ds.countP (fun d => r.TargetName == d.SourceTarget) :=
        List.countP_cons_of_neg _ _ (by simp [hd])
      rw [hcount]

theorem vScanDeviceCascade_eq (deps : List Dependency) (r : ScanInstanceInfo)
    (m : String → List ScanInstanceInfo) :
    scanDeviceCascade deps r m =
      { results := r ::
          (List.replicate (deps.countP (fun d => r.TargetName == d.SourceTarget))
            (m r.IP)).flatten
        modbusSweptIPs :=
          List.replicate (deps.countP (fun d => r.TargetName == d.SourceTarget)) r.IP } := by
  rw [scanDeviceCascade, vCascadeFold]
  simp

/-- C2 (amended): the SNMP matcher never reports an error to ScanDevice
(its only return statement pairs the record with nil), so the cascade
check runs on every scan; the Modbus matcher is invoked once per
dependency entry whose source equals the SNMP record's target name —
in particular it is triggered exactly when that name appears as a
source, including when the classification is the reserved "unknown"
name — and every invocation is against the record's IP field, which is
the scanned IP for a matched target but the empty string for an
unknown classification (the unknown record never has its IP set). -/
theorem scanDevice_cascade_exact_trigger :
    ∀ (libTargets : List Target) (snmpPort : Nat) (deps : List Dependency)
      (conn : SnmpConnInfo) (matchResults : List (Option (List (Option String))))
      (detailResult : List (String × String)) (mac : String)
      (modbusOf : String → List ScanInstanceInfo),
      (MatchSnmpInstances libTargets snmpPort conn matchResults detailResult mac).2 = none
      ∧ ScanDevice libTargets snmpPort deps conn matchResults detailResult mac modbusOf =
          { results :=
              (MatchSnmpInstances libTargets snmpPort conn matchResults detailResult mac).1 ::
              (List.replicate
                (deps.countP (fun d =>
                  (MatchSnmpInstances libTargets snmpPort conn matchResults
                    detailResult mac).1.TargetName == d.SourceTarget))
                (modbusOf
                  (MatchSnmpInstances libTargets snmpPort conn matchResults
                    detailResult mac).1.IP)).flatten
            modbusSweptIPs :=
              List.replicate
                (deps.countP (fun d =>
                  (MatchSnmpInstances libTargets snmpPort conn matchResults
                    detailResult mac).1.TargetName == d.SourceTarget))
                (MatchSnmpInstances libTargets snmpPort conn matchResults
                  detailResult mac).1.IP }
      ∧ (MatchSnmpInstances libTargets snmpPort conn matchResults detailResult mac).1.IP =
          (if (GetSNMPTargetByMatchModelValue libTargets snmpPort conn.IP conn.Port
              PROTOCOL_SNMP (buildSnmpCandidates matchResults)).2 =
              SnmpSessionChoice.unknownSession
           then "" else conn.IP) := by
  intro libTargets snmpPort deps conn matchResults detailResult mac modbusOf
  refine ⟨rfl, ?_, ?_⟩
  · exact vScanDeviceCascade_eq deps _ modbusOf
  · have hip : (MatchSnmpInstances libTargets snmpPort conn matchResults
        detailResult mac).1.IP =
        (GetSNMPTargetByMatchModelValue libTargets snmpPort conn.IP conn.Port
          PROTOCOL_SNMP (buildSnmpCandidates matchResults)).1.IP := rfl
    rw [hip, vGetSNMPTarget_eq_spec]
    cases hfst : firstMatchingCandidate libTargets.enum (buildSnmpCandidates matchResults) with
    | none => simp [unknownInstanceInfo, ScanInstanceInfo.empty]
    | some v =>
      cases hlast : lastMatchingTarget libTargets.enum v with
      | none => simp [hlast, unknownInstanceInfo, ScanInstanceInfo.empty]
      | some it => simp [hlast, mkSnmpMatchInfo]

/-- C2 counterexample: a device whose SNMP classification is the
reserved "unknown" result DOES trigger the Modbus sweep when the
dependency table lists "unknown" as a source target (and the sweep runs
against the record's empty IP field, not the scanned IP), contradicting
the claim that an unknown classification never triggers Modbus
regardless of the dependency table contents. -/
theorem scanDevice_unknown_triggers_counterexample :
    (MatchSnmpInstances [] 161 c2Conn [] [] "").1.TargetName = UNKNOWN_NAME
    ∧ c2Dep.SourceTarget = UNKNOWN_NAME
    ∧ (ScanDevice [] 161 [c2Dep] c2Conn [] [] "" (fun _ => [])).modbusSweptIPs = [""]
    ∧ ([""] : List String) ≠ [] := by
  refine ⟨rfl, rfl, rfl, by decide⟩

/-! ### C5 -/

theorem vModbusLibPassAux_eq :
    ∀ (ts : List Target) (mfgs : List String) (acc : List Target),
      modbusLibPassAux mfgs acc ts =
        acc ++ ts.filter (fun t => t.Protocol == PROTOCOL_MODBUS) := by
  intro ts
  induction ts with
  | nil => intro mfgs acc; simp [modbusLibPassAux]
  | cons t rest ih =>
    intro mfgs acc
    have hc : ((mfgs ++ [t.Manufacturer]).contains t.Manufacturer) = true := by simp
    by_cases hproto : t.Protocol = PROTOCOL_MODBUS
    · have h1 : ¬ t.Protocol ≠ PROTOCOL_MODBUS := by simpa using hproto
      have h2 : ¬ ¬ ((mfgs ++ [t.Manufacturer]).contains t.Manufacturer = true) :=
        not_not_intro hc
      simp only [modbusLibPassAux, if_neg h1, if_neg h2]
      rw [ih, List.filter_cons,
        if_pos (show (t.Protocol == PROTOCOL_MODBUS) = true by simp [hproto])]
      simp [List.append_assoc]
    · have h1 : t.Protocol ≠ PROTOCOL_MODBUS := hproto
      simp only [modbusLibPassAux, if_pos h1]
      rw [ih, List.filter_cons,
        if_neg (show ¬ (t.Protocol == PROTOCOL_MODBUS) = true by simp [hproto])]

theorem vLoadModbusLibTargets_head (ports slaves : List Nat) (ts : List Target)
    (hp : ports ≠ []) (hs : slaves ≠ []) :
    (loadModbusLibTargets ports slaves ts).head? =
      ts.find? (fun t => t.Protocol == PROTOCOL_MODBUS) := by
  rw [loadModbusLibTargets]
  simp only [vModbusLibPassAux_eq, List.nil_append]
  simp only [vFoldl_append_const]
  rw [List.nil_append]
  rw [vHead?_flatten_replicate ports.length (by simpa using hp)]
  rw [vHead?_flatten_replicate slaves.length (by simpa using hs)]
  exact vHead?_filter _ ts

theorem vModbusMatchValue_head (ts : List Target) (ip : String) (port slave : Nat)
    (v : String) :
    modbusMatchValue ts ip port slave v =
      match ts.head? with
      | none => []
      | some t =>
        if goContains v t.ModbusMatchValueContains then
          [{ IP := ip, Port := port, SlaveID := slave, Model := t.Model
             Manufacturer := t.Manufacturer, InstanceType := t.InstanceType }]
        else [] := by
  cases ts <;> rfl

/-- C5: during a Modbus sweep, for every (port, slave ID) pair whose
match read yields non-empty, non-all-zero bytes, the returned bytes
(as text) are compared only against the first library target — the
target loop breaks unconditionally after one iteration — and the
manufacturer pre-filter built by loadModbusInstanceLib always passes
(each target's manufacturer is recorded before its own membership
check), so the library is the configured Modbus targets in order and
the one comparison is against the first configured Modbus target,
whose match decides the identification. -/
theorem modbus_match_first_target_prefilter :
    ∀ (ports slaves : List Nat) (targets : List Target) (ip : String)
      (port slave : Nat) (read : Option (List Nat)),
      ports ≠ [] → slaves ≠ [] →
      modbusLibPassAux [] [] targets =
        targets.filter (fun t => t.Protocol == PROTOCOL_MODBUS)
      ∧ modbusPairMatch (loadModbusLibTargets ports slaves targets) ip port slave read =
          (match read with
           | none => []
           | some bytes =>
             if bytes.length = 0 ∨ allZeros bytes then []
             else
               match targets.find? (fun t => t.Protocol == PROTOCOL_MODBUS) with
               | none => []
               | some t =>
                 if goContains (bytesToString bytes) t.ModbusMatchValueContains then
                   [{ IP := ip, Port := port, SlaveID := slave, Model := t.Model
                      Manufacturer := t.Manufacturer, InstanceType := t.InstanceType }]
                 else []) := by
  intro ports slaves targets ip port slave read hp hs
  constructor
  · simpa using vModbusLibPassAux_eq targets [] []
  · cases read with
    | none => rfl
    | some bytes =>
      simp only [modbusPairMatch]
      by_cases hz : bytes.length = 0 ∨ allZeros bytes = true
      · rw [if_pos hz, if_pos hz]
      · rw [if_neg hz, if_neg hz, vModbusMatchValue_head,
          vLoadModbusLibTargets_head ports slaves targets hp hs]

/-- Witness for the C5 theorem: a concrete sweep configuration with one
SNMP target followed by two Modbus targets; the bytes spell "XAAAX",
which contains only the first Modbus target's signature, and that
target is identified. -/
theorem modbus_match_first_target_prefilter_witness :
    ([7000] : List Nat) ≠ [] ∧ ([0] : List Nat) ≠ []
    ∧ modbusPairMatch
        (loadModbusLibTargets [7000] [0] [c5SnmpTarget, c5ModbusTarget1, c5ModbusTarget2])
        "10.1.249.34" 7000 0 (some [88, 65, 65, 65, 88]) =
        [{ IP := "10.1.249.34", Port := 7000, SlaveID := 0, Model := "mm1"
           Manufacturer := "delta", InstanceType := "pdu" }]
    ∧ (modbusLibPassAux [] [] [c5SnmpTarget, c5ModbusTarget1, c5ModbusTarget2] =
        [c5ModbusTarget1, c5ModbusTarget2]
      ∧ modbusPairMatch
          (loadModbusLibTargets [7000] [0] [c5SnmpTarget, c5ModbusTarget1, c5ModbusTarget2])
          "10.1.249.34" 7000 0 (some [88, 65, 65, 65, 88]) =
          (match some [88, 65, 65, 65, 88] with
           | none => ([] : List ModbusConnInfo)
           | some bytes =>
             if bytes.length = 0 ∨ allZeros bytes then []
             else
               match ([c5SnmpTarget, c5ModbusTarget1, c5ModbusTarget2].find?
                   (fun t => t.Protocol == PROTOCOL_MODBUS)) with
               | none => []
               | some t =>
                 if goContains (bytesToString bytes) t.ModbusMatchValueContains then
                   [{ IP := "10.1.249.34", Port := 7000, SlaveID := 0, Model := t.Model
                      Manufacturer := t.Manufacturer, InstanceType := t.InstanceType }]
                 else [])) := by
  refine ⟨by decide, by decide, by decide, ?_⟩
  have h := modbus_match_first_target_prefilter [7000] [0]
    [c5SnmpTarget, c5ModbusTarget1, c5ModbusTarget2] "10.1.249.34" 7000 0
    (some [88, 65, 65, 65, 88]) (by decide) (by decide)
  exact ⟨by simpa using h.1, h.2⟩

/-! ### C4 -/

theorem vBitsLenAux_zero : ∀ f, bitsLenAux f 0 = 0 := by
  intro f
  cases f <;> rfl

theorem vBitsLenAux_spec :
    ∀ (f n : Nat), n < 2 ^ f →
      n < 2 ^ bitsLenAux f n ∧ bitsLenAux f n ≤ f ∧
        (n ≠ 0 → 2 ^ (bitsLenAux f n - 1) ≤ n) := by
  intro f
  induction f with
  | zero =>
    intro n hn
    interval_cases n
    exact ⟨by norm_num [vBitsLenAux_zero], by simp [vBitsLenAux_zero], by simp⟩
  | succ g ih =>
    intro n hn
    by_cases h0 : n = 0
    · subst h0
      exact ⟨by norm_num [vBitsLenAux_zero], by simp [vBitsLenAux_zero], by simp⟩
    · have hstep : bitsLenAux (g + 1) n = bitsLenAux g (n / 2) + 1 := by
        simp [bitsLenAux, h0]
      have hhalf : n / 2 < 2 ^ g := by
        have : n < 2 ^ g * 2 := by
          rw [← pow_succ]
          exact hn
        omega
      obtain ⟨ih1, ih2, ih3⟩ := ih (n / 2) hhalf
      refine ⟨?_, by omega, ?_⟩
      · rw [hstep, pow_succ]
        omega
      · intro _
        rw [hstep]
        simp only [Nat.add_sub_cancel]
        by_cases hh0 : n / 2 = 0
        · have hb : bitsLenAux g (n / 2) = 0 := by rw [hh0]; exact vBitsLenAux_zero g
          rw [hb]
          omega
        · have := ih3 hh0
          have hb1 : 1 ≤ bitsLenAux g (n / 2) := by
            rcases Nat.eq_zero_or_pos (bitsLenAux g (n / 2)) with hbv | hbv
            · rw [hbv] at ih1
              norm_num at ih1
              omega
            · exact hbv
          calc 2 ^ bitsLenAux g (n / 2) = 2 ^ (bitsLenAux g (n / 2) - 1) * 2 := by
                rw [← pow_succ]
                congr 1
                omega
            _ ≤ n / 2 * 2 := by omega
            _ ≤ n := by omega

theorem vDivEqOfXorLt {k x y : Nat} (h : x ^^^ y < 2 ^ k) : x / 2 ^ k = y / 2 ^ k := by
  rw [← Nat.shiftRight_eq_div_pow, ← Nat.shiftRight_eq_div_pow]
  apply Nat.eq_of_testBit_eq
  intro i
  simp only [Nat.testBit_shiftRight]
  have hbit : (x ^^^ y).testBit (k + i) = false :=
    Nat.testBit_lt_two_pow
      (Nat.lt_of_lt_of_le h (Nat.pow_le_pow_right (by norm_num) (Nat.le_add_right k i)))
  rw [Nat.testBit_xor] at hbit
  cases hx : x.testBit (k + i) <;> cases hy : y.testBit (k + i) <;> simp_all

theorem vXorLtOfDivEq {k x y : Nat} (h : x / 2 ^ k = y / 2 ^ k) : x ^^^ y < 2 ^ k := by
  by_contra hge
  push_neg at hge
  obtain ⟨i, hik, hbit⟩ := Nat.ge_two_pow_implies_high_bit_true hge
  rw [Nat.testBit_xor] at hbit
  have hx : x.testBit i = y.testBit i := by
    have h1 : x >>> k = y >>> k := by
      rw [Nat.shiftRight_eq_div_pow, Nat.shiftRight_eq_div_pow]
      exact h
    have h2 := congrArg (fun z => z.testBit (i - k)) h1
    simpa [Nat.testBit_shiftRight, Nat.add_sub_cancel' hik] using h2
  rw [hx] at hbit
  simp at hbit

theorem vMaskVal {k : Nat} (hk : k ≤ 32) :
    ((2 ^ 32 - 1) <<< k) % 2 ^ 32 = 2 ^ 32 - 2 ^ k := by
  rw [Nat.shiftLeft_eq]
  have h2 : 2 ^ k ≤ 2 ^ 32 := Nat.pow_le_pow_right (by norm_num) hk
  have h3 : 0 < 2 ^ k := Nat.two_pow_pos k
  have h4 : (2 : Nat) ^ 32 ≤ 2 ^ k * 2 ^ 32 := Nat.le_mul_of_pos_left _ h3
  have hml : (2 ^ 32 - 1) * 2 ^ k = 2 ^ 32 * 2 ^ k - 2 ^ k := by
    rw [Nat.sub_mul, Nat.one_mul]
  have hmr : (2 : Nat) ^ 32 * (2 ^ k - 1) = 2 ^ 32 * 2 ^ k - 2 ^ 32 :=
    Nat.mul_sub_one _ _
  have h1 : (2 ^ 32 - 1) * 2 ^ k = 2 ^ 32 * (2 ^ k - 1) + (2 ^ 32 - 2 ^ k) := by
    rw [hml, hmr]
    omega
  rw [h1, Nat.mul_add_mod]
  exact Nat.mod_eq_of_lt (by omega)

theorem vAndMask {s k : Nat} (hs : s < 2 ^ 32) (hk : k ≤ 32) :
    s &&& (2 ^ 32 - 2 ^ k) = s / 2 ^ k * 2 ^ k := by
  have hrw : 2 ^ 32 - 2 ^ k = (2 ^ (32 - k) - 1) <<< k := by
    rw [Nat.shiftLeft_eq, Nat.sub_mul, Nat.one_mul, ← Nat.pow_add]
    congr 2
    omega
  rw [hrw]
  apply Nat.eq_of_testBit_eq
  intro i
  rw [Nat.testBit_and]
  rw [Nat.testBit_shiftLeft, Nat.testBit_two_pow_sub_one]
  have hrhs : (s / 2 ^ k * 2 ^ k).testBit i = (decide (k ≤ i) && s.testBit i) := by
    rw [show s / 2 ^ k * 2 ^ k = (s >>> k) <<< k by
      rw [Nat.shiftRight_eq_div_pow, Nat.shiftLeft_eq]]
    rw [Nat.testBit_shiftLeft, Nat.testBit_shiftRight]
    by_cases hik : k ≤ i
    · simp [hik, Nat.add_sub_cancel' hik]
    · simp [hik]
  rw [hrhs]
  by_cases hik : k ≤ i
  · by_cases hi32 : i < 32
    · have : i - k < 32 - k := by omega
      simp [hik, hi32, this]
    · have hsb : s.testBit i = false :=
        Nat.testBit_lt_two_pow
          (lt_of_lt_of_le hs (Nat.pow_le_pow_right (by norm_num) (by omega)))
      have : ¬ (i - k < 32 - k) := by omega
      simp [hik, hsb, this]
  · simp [hik]

theorem vParseOctet_le {l : List Char} {v : Nat} (h : parseOctet l = some v) : v ≤ 255 := by
  rw [parseOctet] at h
  split at h
  · exact absurd h (by simp)
  · split at h
    · exact absurd h (by simp)
    · split at h
      · exact absurd h (by simp)
      · split at h
        · rename_i hle
          cases h
          exact hle
        · exact absurd h (by simp)

theorem vParseIPv4_lt {s : String} {v : Nat} (h : parseIPv4 s = some v) : v < 2 ^ 32 := by
  rw [parseIPv4] at h
  split at h
  · rename_i a b c d _
    split at h
    · rename_i x y z w hx hy hz hw
      cases h
      have := vParseOctet_le hx
      have := vParseOctet_le hy
      have := vParseOctet_le hz
      have := vParseOctet_le hw
      norm_num
      omega
    · exact absurd h (by simp)
  · exact absurd h (by simp)

theorem vDivEqOfAligned {m a x : Nat} (ha : a % m = 0)
    (h1 : a ≤ x) (h2 : x < a + m) : x / m = a / m := by
  have hq := Nat.div_add_mod a m
  rw [ha, Nat.add_zero] at hq
  have hc : m * (a / m) = (a / m) * m := Nat.mul_comm _ _
  apply Nat.div_eq_of_lt_le
  · omega
  · have hs : (a / m + 1) * m = (a / m) * m + m := Nat.succ_mul _ _
    omega

/-- C4: for valid IPv4 inputs with start at most end, CalculateCIDR
computes the XOR of the endpoints, takes the leading-zero count
(32 minus the bit length) as the prefix length and masks the start
address; the resulting block is aligned, contains both endpoints, and
no longer prefix (smaller block) contains both; unparsable input gives
the invalid-address error and a reversed range the range-order error. -/
theorem calculateCIDR_minimal_superset :
    ∀ (ss es : String) (s e : Nat),
      parseIPv4 ss = some s → parseIPv4 es = some e → s ≤ e →
      CalculateCIDR ss es =
          .ok (uint32ToIPString (calculateCIDRNum s e).1 ++ "/" ++
            toString (calculateCIDRNum s e).2)
      ∧ (calculateCIDRNum s e).2 ≤ 32
      ∧ (calculateCIDRNum s e).1 % 2 ^ (32 - (calculateCIDRNum s e).2) = 0
      ∧ (calculateCIDRNum s e).1 ≤ s
      ∧ e < (calculateCIDRNum s e).1 + 2 ^ (32 - (calculateCIDRNum s e).2)
      ∧ (∀ p, (calculateCIDRNum s e).2 < p → p ≤ 32 →
          ∀ net2, net2 % 2 ^ (32 - p) = 0 →
            ¬ (net2 ≤ s ∧ e < net2 + 2 ^ (32 - p)))
      ∧ (∀ a b sa sb, parseIPv4 a = some sa → parseIPv4 b = some sb → sb < sa →
          CalculateCIDR a b = .error .rangeOrder)
      ∧ (∀ a b, parseIPv4 a = none ∨ parseIPv4 b = none →
          CalculateCIDR a b = .error .invalidAddress) := by
  intro ss es s e hps hpe hse
  have hs32 : s < 2 ^ 32 := vParseIPv4_lt hps
  have he32 : e < 2 ^ 32 := vParseIPv4_lt hpe
  have hd32 : s ^^^ e < 2 ^ 32 := by
    apply vXorLtOfDivEq
    rw [Nat.div_eq_of_lt hs32, Nat.div_eq_of_lt he32]
  have hspec : s ^^^ e < 2 ^ bitsLen32 (s ^^^ e) ∧ bitsLen32 (s ^^^ e) ≤ 32 ∧
      (s ^^^ e ≠ 0 → 2 ^ (bitsLen32 (s ^^^ e) - 1) ≤ s ^^^ e) :=
    vBitsLenAux_spec 32 (s ^^^ e) hd32
  obtain ⟨hLup, hL32, hLlow⟩ := hspec
  have hlen : (calculateCIDRNum s e).2 = 32 - bitsLen32 (s ^^^ e) := rfl
  have hk : 32 - (32 - bitsLen32 (s ^^^ e)) = bitsLen32 (s ^^^ e) := by omega
  have hnet : (calculateCIDRNum s e).1 =
      s / 2 ^ bitsLen32 (s ^^^ e) * 2 ^ bitsLen32 (s ^^^ e) := by
    show s &&& (((2 ^ 32 - 1) <<< (32 - (32 - bitsLen32 (s ^^^ e)))) % 2 ^ 32) = _
    rw [hk, vMaskVal hL32, vAndMask hs32 hL32]
  refine ⟨?_, ?_, ?_, ?_, ?_, ?_, ?_, ?_⟩
  · simp only [CalculateCIDR, hps, hpe]
    rw [if_neg (by omega)]
  · rw [hlen]
    omega
  · rw [hnet, hlen, hk]
    exact Nat.mul_mod_left _ _
  · rw [hnet]
    exact Nat.div_mul_le_self _ _
  · rw [hnet, hlen, hk]
    have hdiv : s / 2 ^ bitsLen32 (s ^^^ e) = e / 2 ^ bitsLen32 (s ^^^ e) :=
      vDivEqOfXorLt hLup
    have hq := Nat.div_add_mod e (2 ^ bitsLen32 (s ^^^ e))
    have hmod : e % 2 ^ bitsLen32 (s ^^^ e) < 2 ^ bitsLen32 (s ^^^ e) :=
      Nat.mod_lt _ (Nat.two_pow_pos _)
    have hc : 2 ^ bitsLen32 (s ^^^ e) * (e / 2 ^ bitsLen32 (s ^^^ e)) =
        e / 2 ^ bitsLen32 (s ^^^ e) * 2 ^ bitsLen32 (s ^^^ e) := Nat.mul_comm _ _
    rw [hdiv]
    omega
  · rw [hlen]
    intro p hlp hp32 net2 halign hcontain
    obtain ⟨hn2s, hn2e⟩ := hcontain
    have hjL : 32 - p < bitsLen32 (s ^^^ e) := by omega
    have hpos : 0 < 2 ^ (32 - p) := Nat.two_pow_pos _
    have hsj : s / 2 ^ (32 - p) = net2 / 2 ^ (32 - p) :=
      vDivEqOfAligned halign hn2s (by omega)
    have hej : e / 2 ^ (32 - p) = net2 / 2 ^ (32 - p) :=
      vDivEqOfAligned halign (by omega) hn2e
    have hxorlt : s ^^^ e < 2 ^ (32 - p) := vXorLtOfDivEq (hsj.trans hej.symm)
    have hdne : s ^^^ e ≠ 0 := by
      intro h0
      have hz : bitsLen32 (s ^^^ e) = 0 := by
        rw [h0]
        exact vBitsLenAux_zero 32
      omega
    have hlow := hLlow hdne
    have hle : 2 ^ (32 - p) ≤ 2 ^ (bitsLen32 (s ^^^ e) - 1) :=
      Nat.pow_le_pow_right (by norm_num) (by omega)
    omega
  · intro a b sa sb hpa hpb hba
    simp only [CalculateCIDR, hpa, hpb]
    rw [if_pos (by omega)]
  · intro a b hnone
    rcases hnone with hna | hnb
    · simp only [CalculateCIDR, hna]
    · simp only [CalculateCIDR, hnb]
      cases parseIPv4 a <;> rfl

/-- Witness for the C4 theorem at the example from the specification:
172.5.0.1 and 172.5.7.254 give the covering block 172.5.0.0/21. -/
theorem calculateCIDR_minimal_superset_witness :
    parseIPv4 "172.5.0.1" = some 2886008833
    ∧ parseIPv4 "172.5.7.254" = some 2886010878
    ∧ (2886008833 : Nat) ≤ 2886010878
    ∧ CalculateCIDR "172.5.0.1" "172.5.7.254" = .ok "172.5.0.0/21"
    ∧ calculateCIDRNum 2886008833 2886010878 = (2886008832, 21)
    ∧ (CalculateCIDR "172.5.0.1" "172.5.7.254" =
          .ok (uint32ToIPString (calculateCIDRNum 2886008833 2886010878).1 ++ "/" ++
            toString (calculateCIDRNum 2886008833 2886010878).2)
      ∧ (calculateCIDRNum 2886008833 2886010878).2 ≤ 32
      ∧ (calculateCIDRNum 2886008833 2886010878).1 %
          2 ^ (32 - (calculateCIDRNum 2886008833 2886010878).2) = 0
      ∧ (calculateCIDRNum 2886008833 2886010878).1 ≤ 2886008833
      ∧ 2886010878 < (calculateCIDRNum 2886008833 2886010878).1 +
          2 ^ (32 - (calculateCIDRNum 2886008833 2886010878).2)
      ∧ (∀ p, (calculateCIDRNum 2886008833 2886010878).2 < p → p ≤ 32 →
          ∀ net2, net2 % 2 ^ (32 - p) = 0 →
            ¬ (net2 ≤ 2886008833 ∧ 2886010878 < net2 + 2 ^ (32 - p)))
      ∧ (∀ a b sa sb, parseIPv4 a = some sa → parseIPv4 b = some sb → sb < sa →
          CalculateCIDR a b = .error .rangeOrder)
      ∧ (∀ a b, parseIPv4 a = none ∨ parseIPv4 b = none →
          CalculateCIDR a b = .error .invalidAddress)) := by
  refine ⟨by decide, by decide, by decide, by rfl, by rfl, ?_⟩
  exact calculateCIDR_minimal_superset "172.5.0.1" "172.5.7.254" 2886008833 2886010878
    (by decide) (by decide) (by decide)

/-! ### C8 -/

theorem vDigitNe {c x : Char} (hd : c.isDigit = true) (hx : x.isDigit = false) : c ≠ x := by
  intro h
  rw [h] at hd
  rw [hd] at hx
  cases hx

theorem vTrimParenLeft_skip (c : Char) (hc : c = '(' ∨ c = ')') (rest : List Char) :
    trimParenLeft (c :: rest) = trimParenLeft rest := by
  simp only [trimParenLeft, if_pos hc]

theorem vTrimParenLeft_stop {c : Char} (h1 : c ≠ '(') (h2 : c ≠ ')') (rest : List Char) :
    trimParenLeft (c :: rest) = c :: rest := by
  simp only [trimParenLeft]
  rw [if_neg (by rintro (h | h) <;> [exact h1 h; exact h2 h])]

theorem vGoSplit_no_sep (sep : Char) :
    ∀ (b : List Char), (∀ c ∈ b, c ≠ sep) → goSplitChar sep b = [b] := by
  intro b
  induction b with
  | nil => intro _; rfl
  | cons c t ih =>
    intro h
    have hc : c ≠ sep := h c (List.mem_cons_self c t)
    simp only [goSplitChar]
    rw [if_neg hc, ih (fun x hx => h x (List.mem_cons_of_mem c hx))]

theorem vGoSplit_append (sep : Char) :
    ∀ (a b : List Char), (∀ c ∈ a, c ≠ sep) →
      goSplitChar sep (a ++ sep :: b) = a :: goSplitChar sep b := by
  intro a
  induction a with
  | nil =>
    intro b _
    simp [goSplitChar]
  | cons c t ih =>
    intro b h
    have hc : c ≠ sep := h c (List.mem_cons_self c t)
    simp only [List.cons_append, goSplitChar, List.append_eq]
    rw [if_neg hc, ih b (fun x hx => h x (List.mem_cons_of_mem c hx))]

theorem vTrimUptime (ds u : List Char) (hds : ds ≠ [])
    (hdig : ds.all Char.isDigit = true) (hu : u ≠ [])
    (huok : ∀ c ∈ u, ¬(c = '(' ∨ c = ')')) :
    goTrimParens ('(' :: (ds ++ ' ' :: (u ++ [')']))) = ds ++ ' ' :: u := by
  obtain ⟨d, ds', rfl⟩ : ∃ d ds', ds = d :: ds' := by
    cases ds with
    | nil => exact absurd rfl hds
    | cons d t => exact ⟨d, t, rfl⟩
  have hddig : d.isDigit = true := by
    rw [List.all_cons, Bool.and_eq_true] at hdig
    exact hdig.1
  have hd1 : d ≠ '(' := vDigitNe hddig (by decide)
  have hd2 : d ≠ ')' := vDigitNe hddig (by decide)
  obtain ⟨x, xs, hur⟩ : ∃ x xs, u.reverse = x :: xs := by
    cases hru : u.reverse with
    | nil => exact absurd (by simpa using hru) hu
    | cons x xs => exact ⟨x, xs, rfl⟩
  have hxmem : x ∈ u := by
    have hxr : x ∈ u.reverse := by
      rw [hur]
      exact List.mem_cons_self x xs
    exact List.mem_reverse.1 hxr
  have hx1 : x ≠ '(' := fun h => huok x hxmem (Or.inl h)
  have hx2 : x ≠ ')' := fun h => huok x hxmem (Or.inr h)
  rw [goTrimParens]
  rw [vTrimParenLeft_skip '(' (Or.inl rfl)]
  rw [show ((d :: ds') ++ ' ' :: (u ++ [')'])) = d :: (ds' ++ ' ' :: (u ++ [')']))
    from rfl]
  rw [vTrimParenLeft_stop hd1 hd2]
  have hrev : (d :: (ds' ++ ' ' :: (u ++ [')']))).reverse =
      ')' :: (u.reverse ++ (' ' :: (d :: ds').reverse)) := by
    simp [List.reverse_cons, List.reverse_append, List.append_assoc]
  rw [hrev, vTrimParenLeft_skip ')' (Or.inr rfl)]
  rw [hur]
  rw [show ((x :: xs) ++ (' ' :: (d :: ds').reverse)) =
      x :: (xs ++ ' ' :: (d :: ds').reverse) from rfl]
  rw [vTrimParenLeft_stop hx1 hx2]
  rw [show (x :: (xs ++ ' ' :: (d :: ds').reverse)) =
      ((x :: xs) ++ (' ' :: (d :: ds').reverse)) from rfl]
  rw [← hur]
  simp [List.reverse_append]

theorem vParseInt64_digits (ds : List Char) (hds : ds ≠ [])
    (hdig : ds.all Char.isDigit = true) :
    parseInt64 ds =
      if digitsVal ds ≤ INT64_MAX then some ((digitsVal ds : Nat) : Int) else none := by
  obtain ⟨d, t, rfl⟩ : ∃ d t, ds = d :: t := by
    cases ds with
    | nil => exact absurd rfl hds
    | cons d t => exact ⟨d, t, rfl⟩
  have hddig : d.isDigit = true := by
    rw [List.all_cons, Bool.and_eq_true] at hdig
    exact hdig.1
  have h1 : d ≠ '-' := vDigitNe hddig (by decide)
  have h2 : d ≠ '+' := vDigitNe hddig (by decide)
  simp only [parseInt64, if_neg h1, if_neg h2, parseInt64Core]
  rw [if_neg (by simp)]
  rw [if_neg (not_not_intro hdig)]
  by_cases hle : digitsVal (d :: t) ≤ INT64_MAX
  · rw [if_pos hle, if_pos hle]
    rfl
  · rw [if_neg hle, if_neg hle]
    rfl

theorem vWrap64_id {x : Int} (h1 : 0 ≤ x) (h2 : x < 2 ^ 63) : wrap64 x = x := by
  rw [wrap64]
  have hb : ((2 : Int) ^ 63) = 9223372036854775808 := by norm_num
  have hb2 : ((2 : Int) ^ 64) = 18446744073709551616 := by norm_num
  have hmod : (x + 2 ^ 63) % 2 ^ 64 = x + 2 ^ 63 :=
    Int.emod_eq_of_lt (by omega) (by omega)
  omega

theorem vMulw_id (a b : Int) (ha : 0 ≤ a) (hb : 0 ≤ b) (h : a * b < 2 ^ 63) :
    mulw a b = a * b := by
  rw [mulw]
  exact vWrap64_id (mul_nonneg ha hb) h

theorem vParseUptime_shape (ds u : List Char) (hds : ds ≠ [])
    (hdig : ds.all Char.isDigit = true) (hu : u ≠ [])
    (huok : ∀ c ∈ u, ¬(c = '(' ∨ c = ')')) (husp : ∀ c ∈ u, c ≠ ' ') :
    parseUptimeToSeconds (String.mk ('(' :: (ds ++ ' ' :: (u ++ [')'])))) =
      match parseInt64 ds with
      | none => 0
      | some v =>
        if u = "days".data then mulw (mulw (mulw v 24) 60) 60
        else if u = "hours".data then mulw (mulw v 60) 60
        else if u = "minutes".data then mulw v 60
        else if u = "seconds".data then v
        else 0 := by
  have hdata : (String.mk ('(' :: (ds ++ ' ' :: (u ++ [')'])))).data =
      '(' :: (ds ++ ' ' :: (u ++ [')'])) := rfl
  have hds_space : ∀ c ∈ ds, c ≠ ' ' := by
    intro c hc
    have : c.isDigit = true := List.all_eq_true.1 hdig c hc
    exact vDigitNe this (by decide)
  rw [parseUptimeToSeconds, hdata]
  rw [if_neg (by simp)]
  rw [vTrimUptime ds u hds hdig hu huok]
  have hsplit : goSplitChar ' ' (ds ++ ' ' :: u) = [ds, u] := by
    rw [vGoSplit_append ' ' ds u hds_space, vGoSplit_no_sep ' ' u husp]
  simp only [hsplit]

theorem vParseUptime_eval (ds u : List Char) (hds : ds ≠ [])
    (hdig : ds.all Char.isDigit = true) (hu : u ≠ [])
    (huok : ∀ c ∈ u, ¬(c = '(' ∨ c = ')')) (husp : ∀ c ∈ u, c ≠ ' ')
    (v : Int) (hv : parseInt64 ds = some v) :
    parseUptimeToSeconds (String.mk ('(' :: (ds ++ ' ' :: (u ++ [')'])))) =
      (if u = "days".data then mulw (mulw (mulw v 24) 60) 60
       else if u = "hours".data then mulw (mulw v 60) 60
       else if u = "minutes".data then mulw v 60
       else if u = "seconds".data then v
       else 0) := by
  rw [vParseUptime_shape ds u hds hdig hu huok husp, hv]

theorem vMulwBound (n : Nat) (k m : Int) (hkm : k ≤ m)
    (h : (n : Int) * m < 2 ^ 63) : (n : Int) * k < 2 ^ 63 := by
  have h1 : (n : Int) * k ≤ (n : Int) * m :=
    mul_le_mul_of_nonneg_left hkm (Int.natCast_nonneg n)
  linarith

/-- C8 (amended): for a well-formed uptime string of the form
(digits unit) with unit among days, hours, minutes and seconds,
parseUptimeToSeconds yields the numeral scaled by 86400, 3600, 60 and 1
respectively, provided the scaled value fits in a signed 64-bit
integer; the empty string yields 0; a numeral beyond the int64 range
fails strconv.ParseInt and also yields 0 (it does NOT yield n times the
unit factor, and mid-range products wrap — see the counterexample). -/
theorem parseUptime_wellformed_within_int64 :
    ∀ (ds : List Char), ds ≠ [] → ds.all Char.isDigit = true →
      (digitsVal ds * 86400 ≤ INT64_MAX →
        parseUptimeToSeconds (String.mk ('(' :: (ds ++ ' ' :: ("days".data ++ [')'])))) =
          (digitsVal ds : Int) * 86400)
      ∧ (digitsVal ds * 3600 ≤ INT64_MAX →
        parseUptimeToSeconds (String.mk ('(' :: (ds ++ ' ' :: ("hours".data ++ [')'])))) =
          (digitsVal ds : Int) * 3600)
      ∧ (digitsVal ds * 60 ≤ INT64_MAX →
        parseUptimeToSeconds (String.mk ('(' :: (ds ++ ' ' :: ("minutes".data ++ [')'])))) =
          (digitsVal ds : Int) * 60)
      ∧ (digitsVal ds ≤ INT64_MAX →
        parseUptimeToSeconds (String.mk ('(' :: (ds ++ ' ' :: ("seconds".data ++ [')'])))) =
          (digitsVal ds : Int))
      ∧ (INT64_MAX < digitsVal ds →
        parseUptimeToSeconds (String.mk ('(' :: (ds ++ ' ' :: ("days".data ++ [')'])))) = 0)
      ∧ parseUptimeToSeconds "" = 0 := by
  intro ds hds hdig
  have hcast : ∀ m : Nat, m ≤ INT64_MAX → ((m : Int) < 2 ^ 63) := by
    intro m hm
    have hm2 : m < 2 ^ 63 := by
      have h63 : INT64_MAX < 2 ^ 63 := by norm_num [INT64_MAX]
      omega
    exact_mod_cast hm2
  have hn0 : (0 : Int) ≤ (digitsVal ds : Int) := Int.natCast_nonneg _
  refine ⟨?_, ?_, ?_, ?_, ?_, rfl⟩
  · intro hb
    have hle : digitsVal ds ≤ INT64_MAX := by
      have h24 : digitsVal ds ≤ digitsVal ds * 86400 :=
        Nat.le_mul_of_pos_right _ (by norm_num)
      omega
    rw [vParseUptime_eval ds "days".data hds hdig (by decide) (by decide) (by decide)
      ((digitsVal ds : Nat) : Int)
      (by rw [vParseInt64_digits ds hds hdig, if_pos hle])]
    rw [if_pos (show "days".data = "days".data from rfl)]
    have hfull : (digitsVal ds : Int) * 86400 < 2 ^ 63 := by
      have hc := hcast (digitsVal ds * 86400) hb
      push_cast at hc
      linarith
    have e1 : mulw (digitsVal ds : Int) 24 = (digitsVal ds : Int) * 24 :=
      vMulw_id _ _ hn0 (by norm_num) (vMulwBound _ 24 86400 (by norm_num) hfull)
    have e2 : mulw ((digitsVal ds : Int) * 24) 60 = (digitsVal ds : Int) * 24 * 60 :=
      vMulw_id _ _ (mul_nonneg hn0 (by norm_num)) (by norm_num) (by
        rw [show (digitsVal ds : Int) * 24 * 60 = (digitsVal ds : Int) * 1440 from by ring]
        exact vMulwBound _ 1440 86400 (by norm_num) hfull)
    have e3 : mulw ((digitsVal ds : Int) * 24 * 60) 60 =
        (digitsVal ds : Int) * 24 * 60 * 60 :=
      vMulw_id _ _ (mul_nonneg (mul_nonneg hn0 (by norm_num)) (by norm_num)) (by norm_num) (by
        rw [show (digitsVal ds : Int) * 24 * 60 * 60 = (digitsVal ds : Int) * 86400
          from by ring]
        exact hfull)
    rw [e1, e2, e3]
    ring
  · intro hb
    have hle : digitsVal ds ≤ INT64_MAX := by
      have h36 : digitsVal ds ≤ digitsVal ds * 3600 :=
        Nat.le_mul_of_pos_right _ (by norm_num)
      omega
    rw [vParseUptime_eval ds "hours".data hds hdig (by decide) (by decide) (by decide)
      ((digitsVal ds : Nat) : Int)
      (by rw [vParseInt64_digits ds hds hdig, if_pos hle])]
    rw [if_neg (show ¬ ("hours".data = "days".data) by decide),
      if_pos (show "hours".data = "hours".data from rfl)]
    have hfull : (digitsVal ds : Int) * 3600 < 2 ^ 63 := by
      have hc := hcast (digitsVal ds * 3600) hb
      push_cast at hc
      linarith
    have e1 : mulw (digitsVal ds : Int) 60 = (digitsVal ds : Int) * 60 :=
      vMulw_id _ _ hn0 (by norm_num) (vMulwBound _ 60 3600 (by norm_num) hfull)
    have e2 : mulw ((digitsVal ds : Int) * 60) 60 = (digitsVal ds : Int) * 60 * 60 :=
      vMulw_id _ _ (mul_nonneg hn0 (by norm_num)) (by norm_num) (by
        rw [show (digitsVal ds : Int) * 60 * 60 = (digitsVal ds : Int) * 3600 from by ring]
        exact hfull)
    rw [e1, e2]
    ring
  · intro hb
    have hle : digitsVal ds ≤ INT64_MAX := by
      have h60 : digitsVal ds ≤ digitsVal ds * 60 :=
        Nat.le_mul_of_pos_right _ (by norm_num)
      omega
    rw [vParseUptime_eval ds "minutes".data hds hdig (by decide) (by decide) (by decide)
      ((digitsVal ds : Nat) : Int)
      (by rw [vParseInt64_digits ds hds hdig, if_pos hle])]
    rw [if_neg (show ¬ ("minutes".data = "days".data) by decide),
      if_neg (show ¬ ("minutes".data = "hours".data) by decide),
      if_pos (show "minutes".data = "minutes".data from rfl)]
    have hfull : (digitsVal ds : Int) * 60 < 2 ^ 63 := by
      have hc := hcast (digitsVal ds * 60) hb
      push_cast at hc
      linarith
    exact vMulw_id _ _ hn0 (by norm_num) hfull
  · intro hb
    rw [vParseUptime_eval ds "seconds".data hds hdig (by decide) (by decide) (by decide)
      ((digitsVal ds : Nat) : Int)
      (by rw [vParseInt64_digits ds hds hdig, if_pos hb])]
    rw [if_neg (show ¬ ("seconds".data = "days".data) by decide),
      if_neg (show ¬ ("seconds".data = "hours".data) by decide),
      if_neg (show ¬ ("seconds".data = "minutes".data) by decide),
      if_pos (show "seconds".data = "seconds".data from rfl)]
  · intro hb
    rw [vParseUptime_shape ds "days".data hds hdig (by decide) (by decide) (by decide)]
    rw [vParseInt64_digits ds hds hdig]
    rw [if_neg (by omega)]

/-- Witness for the C8 theorem: the specification's examples evaluate
as claimed through the theorem. -/
theorem parseUptime_wellformed_within_int64_witness :
    parseUptimeToSeconds "(3 days)" = 259200
    ∧ parseUptimeToSeconds "(45 minutes)" = 2700
    ∧ parseUptimeToSeconds "" = 0 := by
  have h3 := parseUptime_wellformed_within_int64 ['3'] (by decide) (by decide)
  have h45 := parseUptime_wellformed_within_int64 ['4', '5'] (by decide) (by decide)
  refine ⟨?_, ?_, h3.2.2.2.2.2⟩
  · have e := h3.1 (by decide)
    have hstr : String.mk ('(' :: (['3'] ++ ' ' :: ("days".data ++ [')']))) = "(3 days)" :=
      rfl
    rw [hstr] at e
    rw [e]
    decide
  · have e := h45.2.2.1 (by decide)
    have hstr : String.mk ('(' :: (['4', '5'] ++ ' ' :: ("minutes".data ++ [')']))) =
        "(45 minutes)" := rfl
    rw [hstr] at e
    rw [e]
    decide

/-- C8 counterexample: strings of the claimed form with a large numeral
do not map to n times the unit factor: at n equal to 2 to the 63rd the
numeral fails the int64 range check of strconv.ParseInt and the result
is 0, and at n equal to 2 to the 63rd minus 1 the int64 multiplication
wraps around to -86400. -/
theorem parseUptime_overflow_counterexample :
    parseUptimeToSeconds "(9223372036854775808 days)" = 0
    ∧ (9223372036854775808 : Int) * 86400 ≠ 0
    ∧ parseUptimeToSeconds "(9223372036854775807 days)" = -86400
    ∧ (9223372036854775807 : Int) * 86400 ≠ -86400 := by
  refine ⟨by rfl, by decide, by rfl, by decide⟩

end ViOT
